import Mathlib

/-!
Railway reservation: the ticket store of `railway_reservation.c`

A shallow embedding of the C program's ticket store.

* The data file `tickets.dat` is a sequence of fixed-size `Ticket` records.  It is
  modelled as `Option (List Ticket)`: `none` is the state in which the file does not
  exist yet, so that `fopen` for reading or updating fails, `some ts` holds the records
  in file order.  A `fread` loop over the file is a recursion over that list.  A file
  that exists may still fail to open for updating, appending or writing (a read-only
  file): the operations that open it so take a Boolean `opens`.
* The `char` buffers of a record are modelled by the C string they hold (the bytes in
  front of the terminating NUL), so `strcmp(a, b) == 0` is equality of the two lists.
* `int` values are `Int`; no computation of the program comes near the 32-bit limits.
  The one number read from outside, the age, is kept as a 32-bit `int` stores it
  (`wrap_int32`).
* Console input and the environment (clock, `rand`, whether the file opens for
  appending) are explicit arguments of the operation that consumes them.
  `book_ticket_console` takes the lines and the age as its reads deliver them;
  `book_ticket_console_stdin` runs those reads (`fgets`, `scanf`, `clear_stdin`) on the
  characters waiting in `stdin`.
-/

namespace Railway

/-- The contents of a NUL-terminated `char` buffer: the bytes before the NUL. -/
abbrev CStr := List Char

/-- The constant of `#define MAX_SEATS 100`. -/
def MAX_SEATS : Nat := 100

/-- The constant of `#define NAME_LEN 50`. -/
def NAME_LEN : Nat := 50

/-- The constant of `#define GENDER_LEN 10`. -/
def GENDER_LEN : Nat := 10

/-- The constant of `#define PNR_LEN 32`. -/
def PNR_LEN : Nat := 32

/-- The record `Ticket` of the source, field for field. -/
structure Ticket where
  pnr : CStr
  name : CStr
  age : Int
  gender : CStr
  seat_no : Int
  active : Int
deriving DecidableEq, Repr

/-- The data file: `none` when it cannot be opened for reading, else its records. -/
abbrev DataFile := Option (List Ticket)

/-- The records a `fread` loop sees; an absent file has none. -/
def records : DataFile → List Ticket
  | none => []
  | some ts => ts

/-- The fields of `struct tm` that `generate_pnr` reads. -/
structure Tm where
  tm_mon : Int
  tm_mday : Int
  tm_hour : Int
  tm_min : Int
deriving DecidableEq, Repr

/-- Left padding with `'0'` up to `width` characters, as the `0` flag of `printf` does. -/
def zero_pad (width : Nat) (body : List Char) : List Char :=
  List.replicate (width - body.length) '0' ++ body

/-- The conversion `%0<width>d` of `printf` applied to an `int`. -/
def printf_0d (width : Nat) (v : Int) : List Char :=
  if v < 0 then '-' :: zero_pad (width - 1) (Nat.toDigits 10 v.natAbs)
  else zero_pad width (Nat.toDigits 10 v.toNat)

/-- The function `generate_pnr(out, len)`: `tm` is the result of `localtime`, `rand_value` the result
of `rand()`; `snprintf` keeps at most `len - 1` characters. -/
def generate_pnr (tm : Tm) (rand_value : Nat) (len : Nat) : CStr :=
  let r : Int := ((rand_value % 10000 : Nat) : Int)
  (['P', 'N', 'R'] ++ printf_0d 2 (tm.tm_mon + 1) ++ printf_0d 2 tm.tm_mday
    ++ printf_0d 2 tm.tm_hour ++ printf_0d 2 tm.tm_min ++ printf_0d 4 r).take (len - 1)

/-- The call `strncpy(dst, src, n)` into a zero-filled buffer longer than `n`: the string then
held by `dst`. -/
def strncpy_zeroed (src : CStr) (n : Nat) : CStr :=
  src.take n

/-- The function `append_ticket_to_file(t)`: `opens` says whether `fopen(DATAFILE, "ab")` succeeds;
mode `"ab"` creates a missing file. -/
def append_ticket_to_file (t : Ticket) (opens : Bool) (d : DataFile) : Int × DataFile :=
  if opens then (1, some (records d ++ [t])) else (0, d)

/-- The `fread` loop of `cancel_ticket_by_pnr`: the value of `found` and the records
after the in-place rewrite. -/
def cancel_scan (pnr : CStr) : List Ticket → Int × List Ticket
  | [] => (0, [])
  | t :: rest =>
    if t.active ≠ 0 ∧ t.pnr = pnr then
      (1, { t with active := 0 } :: rest)
    else
      ((cancel_scan pnr rest).1, t :: (cancel_scan pnr rest).2)

/-- The function `cancel_ticket_by_pnr(pnr)`: `opens` says whether
`fopen(DATAFILE, "r+b")` succeeds on a file that exists; on a missing file it never
does. When the file does not open the call prints "No bookings found." and returns 0
without reading or writing. The returned `int` and the data file afterwards. -/
def cancel_ticket_by_pnr (pnr : CStr) (opens : Bool) : DataFile → Int × DataFile
  | none => (0, none)
  | some ts =>
    if opens then ((cancel_scan pnr ts).1, some (cancel_scan pnr ts).2) else (0, some ts)

/-- The `fread` loop of `seat_is_taken`. -/
def seat_scan (seat_no : Int) : List Ticket → Int
  | [] => 0
  | t :: rest => if t.active ≠ 0 ∧ t.seat_no = seat_no then 1 else seat_scan seat_no rest

/-- The function `seat_is_taken(seat_no)`: 1 when the scan meets an active record on
the seat, 0 otherwise or when the file does not open. -/
def seat_is_taken (seat_no : Int) : DataFile → Int
  | none => 0
  | some ts => seat_scan seat_no ts

/-- The `for` loop of `get_next_available_seat`, with `n` iterations left to run,
the next one for seat `s`. -/
def next_seat_loop (d : DataFile) : Nat → Int → Int
  | 0, _ => -1
  | n + 1, s => if seat_is_taken s d = 0 then s else next_seat_loop d n (s + 1)

/-- The function `get_next_available_seat()`: the loop runs for `s = 1, ..., MAX_SEATS`. -/
def get_next_available_seat (d : DataFile) : Int :=
  next_seat_loop d MAX_SEATS 1

/-- The `fread` loop of `count_active_bookings`, `c` being the counter. -/
def count_scan (c : Int) : List Ticket → Int
  | [] => c
  | t :: rest => count_scan (if t.active ≠ 0 then c + 1 else c) rest

/-- The function `count_active_bookings()`: 0 when the file does not open. -/
def count_active_bookings : DataFile → Int
  | none => 0
  | some ts => count_scan 0 ts

/-- What one call of `book_ticket_console` consumes: the two text lines as `temp` holds
them once the newline is removed, the outcome of `scanf("%d", &t.age)` (`none` when it
does not return 1), the clock and `rand()` values used by `generate_pnr`, and whether
the data file opens for appending. -/
structure BookInput where
  name_line : CStr
  age : Option Int
  gender_line : CStr
  tm : Tm
  rand_value : Nat
  append_opens : Bool
deriving DecidableEq, Repr

/-- The four ways `book_ticket_console` ends, by the message it prints. -/
inductive BookOutcome where
  | invalid_age
  | no_seats
  | save_failed
  | booked (t : Ticket)
deriving DecidableEq, Repr

/-- The function `book_ticket_console()`: the data file afterwards and the outcome printed. -/
def book_ticket_console (inp : BookInput) (d : DataFile) : DataFile × BookOutcome :=
  match inp.age with
  | none => (d, BookOutcome.invalid_age)
  | some age =>
    let seat := get_next_available_seat d
    if seat = -1 then (d, BookOutcome.no_seats)
    else
      let t : Ticket :=
        { pnr := generate_pnr inp.tm inp.rand_value PNR_LEN
          name := strncpy_zeroed inp.name_line (NAME_LEN - 1)
          age := age
          gender := strncpy_zeroed inp.gender_line (GENDER_LEN - 1)
          seat_no := seat
          active := 1 }
      let r := append_ticket_to_file t inp.append_opens d
      if r.1 = 0 then (r.2, BookOutcome.save_failed) else (r.2, BookOutcome.booked t)

/-- What `search_by_pnr_console` prints. -/
inductive SearchResult where
  | no_bookings
  | not_found
  | found_active (t : Ticket)
  | was_cancelled
deriving DecidableEq, Repr

/-- The `fread` loop of `search_by_pnr_console`. -/
def search_scan (pnr : CStr) : List Ticket → SearchResult
  | [] => SearchResult.not_found
  | t :: rest =>
    if t.pnr = pnr then
      (if t.active ≠ 0 then SearchResult.found_active t else SearchResult.was_cancelled)
    else search_scan pnr rest

/-- The function `search_by_pnr_console()` for the identifier typed in. -/
def search_by_pnr_console (pnr : CStr) : DataFile → SearchResult
  | none => SearchResult.no_bookings
  | some ts => search_scan pnr ts

/-- One state-changing choice of the menu loop. -/
inductive Op where
  | book (inp : BookInput)
  | cancel (pnr : CStr) (opens : Bool)
deriving DecidableEq, Repr

/-- The data file after one operation. -/
def apply_op (d : DataFile) : Op → DataFile
  | Op.book inp => (book_ticket_console inp d).1
  | Op.cancel pnr opens => (cancel_ticket_by_pnr pnr opens d).2

/-- The data files the program can produce: it starts from an absent or an empty file
and performs bookings and cancellations. -/
inductive Reachable : DataFile → Prop where
  | absent : Reachable none
  | empty : Reachable (some [])
  | step (d : DataFile) (op : Op) : Reachable d → Reachable (apply_op d op)

/-- A run of the menu loop: the data file, the number of bookings that ended in
"Booking successful" and the number of calls of `cancel_ticket_by_pnr` that returned 1. -/
structure RunState where
  file : DataFile
  booked : Nat
  cancelled : Nat
deriving DecidableEq, Repr

/-- One operation of a run, with the two tallies kept. -/
def run_op (st : RunState) : Op → RunState
  | Op.book inp =>
    match book_ticket_console inp st.file with
    | (d, BookOutcome.booked _) => { file := d, booked := st.booked + 1, cancelled := st.cancelled }
    | (d, _) => { st with file := d }
  | Op.cancel pnr opens =>
    let r := cancel_ticket_by_pnr pnr opens st.file
    if r.1 = 1 then { file := r.2, booked := st.booked, cancelled := st.cancelled + 1 }
    else { st with file := r.2 }

/-- A finite sequence of operations, run in order. -/
def run_ops (st : RunState) (ops : List Op) : RunState :=
  ops.foldl run_op st

/-- Seat `s` is held: some active record of the file carries it. -/
def seat_held (d : DataFile) (s : Int) : Prop :=
  ∃ t ∈ records d, t.active ≠ 0 ∧ t.seat_no = s

/-- A record that `cancel_ticket_by_pnr pnr` would rewrite: active and carrying `pnr`. -/
def cancellable (pnr : CStr) (t : Ticket) : Prop :=
  t.active ≠ 0 ∧ t.pnr = pnr

/-- The record `book_ticket_console` builds from its input and the seat it was given. -/
def new_ticket (inp : BookInput) (age : Int) (seat : Int) : Ticket :=
  { pnr := generate_pnr inp.tm inp.rand_value PNR_LEN
    name := strncpy_zeroed inp.name_line (NAME_LEN - 1)
    age := age
    gender := strncpy_zeroed inp.gender_line (GENDER_LEN - 1)
    seat_no := seat
    active := 1 }

/-- No two active records of the list carry the same seat number. -/
def seats_distinct (ts : List Ticket) : Prop :=
  ts.Pairwise (fun a b => a.active ≠ 0 → b.active ≠ 0 → a.seat_no ≠ b.seat_no)

/-- Every record of the list carries a seat number of `1..MAX_SEATS`. -/
def seats_in_range (ts : List Ticket) : Prop :=
  ∀ t ∈ ts, 1 ≤ t.seat_no ∧ t.seat_no ≤ (MAX_SEATS : Int)

/-- The test `t.active` of the source, as a Boolean. -/
def is_active (t : Ticket) : Bool :=
  decide (t.active ≠ 0)

/-- The loop of `load_all_tickets`: `i` is the index, `out` the entries `tickets[0..i-1]`
filled so far, the list what `fread` has still to deliver. The test `i < max` comes
first; `fread` fails at the end of the file. -/
def load_loop (max : Int) : Int → List Ticket → List Ticket → Int × List Ticket
  | i, out, [] => (i, out)
  | i, out, t :: rest => if i < max then load_loop max (i + 1) (out ++ [t]) rest else (i, out)

/-- The function `load_all_tickets(tickets, max)`: the returned count and the entries of
`tickets` it has filled, in order; 0 and nothing when the file does not open. -/
def load_all_tickets (max : Int) : DataFile → Int × List Ticket
  | none => (0, [])
  | some ts => load_loop max 0 [] ts

/-- The function `save_all_tickets(tickets, count)`: `opens` says whether
`fopen(DATAFILE, "wb")` succeeds, which empties or creates the file; `fwrite` then writes
the first `count` entries of `tickets` (an array of at least `count` entries, `count`
not negative). The returned `int` and the data file afterwards. -/
def save_all_tickets (tickets : List Ticket) (count : Int) (opens : Bool) (d : DataFile) :
    Int × DataFile :=
  if opens then (1, some (tickets.take count.toNat)) else (0, d)

/-- The `for` loop of `show_available_seats_console`, with `n` iterations left to run,
the next one for seat `s`: the marks printed, `'X'` for a taken seat and `'O'` for a
free one. -/
def seat_map_loop (d : DataFile) : Nat → Int → List Char
  | 0, _ => []
  | n + 1, s => (if seat_is_taken s d ≠ 0 then 'X' else 'O') :: seat_map_loop d n (s + 1)

/-- What `show_available_seats_console` prints: the marks of the seats `1..MAX_SEATS` in
order and the three numbers of the last line. -/
structure SeatMap where
  marks : List Char
  total : Int
  booked : Int
  available : Int
deriving DecidableEq, Repr

/-- The function `show_available_seats_console()`. -/
def show_available_seats_console (d : DataFile) : SeatMap :=
  { marks := seat_map_loop d MAX_SEATS 1
    total := (MAX_SEATS : Int)
    booked := count_active_bookings d
    available := (MAX_SEATS : Int) - count_active_bookings d }

/-- The identifiers `generate_pnr` would give for the bookings of a sequence of
operations, in order. -/
def booking_pnrs : List Op → List CStr
  | [] => []
  | Op.book inp :: rest => generate_pnr inp.tm inp.rand_value PNR_LEN :: booking_pnrs rest
  | Op.cancel _ _ :: rest => booking_pnrs rest

/-- A field of two decimal digits, zero-padded, in the words of the identifier format:
tens, then units. -/
def two_digit_field (n : Nat) : List Char :=
  [Nat.digitChar (n / 10), Nat.digitChar (n % 10)]

/-- A field of four decimal digits, zero-padded, in the words of the identifier format:
thousands, hundreds, tens, units. -/
def four_digit_field (n : Nat) : List Char :=
  [Nat.digitChar (n / 1000), Nat.digitChar (n / 100 % 10), Nat.digitChar (n / 10 % 10),
    Nat.digitChar (n % 10)]

/-- The identifier format in the words of the specification: `PNR`, then month, day,
hour and minute as two digits each, then the four-digit suffix. -/
def pnr_format (month day hour minute suffix : Nat) : CStr :=
  ['P', 'N', 'R'] ++ two_digit_field month ++ two_digit_field day ++ two_digit_field hour ++
    two_digit_field minute ++ four_digit_field suffix

/-- A booking input used in the concrete runs below. -/
def sample_input : BookInput :=
  { name_line := ['A', 'n', 'n'], age := some 30, gender_line := ['F'],
    tm := { tm_mon := 9, tm_mday := 30, tm_hour := 13, tm_min := 5 },
    rand_value := 41, append_opens := true }

/-- The data file after `n` bookings with `sample_input`, from an absent file. -/
def book_many (n : Nat) : DataFile :=
  (List.replicate n (Op.book sample_input)).foldl apply_op none

/-- The identifier `generate_pnr` gives for `sample_input`. -/
def sample_pnr : CStr :=
  generate_pnr sample_input.tm sample_input.rand_value PNR_LEN

/-- The booking input `sample_input` with another value of `rand()`. -/
def sample_input_with (r : Nat) : BookInput :=
  { sample_input with rand_value := r }

/-- A run used below: two bookings, two cancellations of their common identifier,
one more booking. -/
def sample_ops : List Op :=
  [Op.book sample_input, Op.book sample_input, Op.cancel sample_pnr true,
    Op.cancel sample_pnr true,
    Op.book sample_input]

/-! ## Scans of the file -/

theorem seat_scan_eq_one_iff (s : Int) (ts : List Ticket) :
    seat_scan s ts = 1 ↔ ∃ t ∈ ts, t.active ≠ 0 ∧ t.seat_no = s := by
  induction ts with
  | nil => simp [seat_scan]
  | cons t rest ih =>
    by_cases h : t.active ≠ 0 ∧ t.seat_no = s
    · simp only [seat_scan, if_pos h, List.mem_cons, true_iff]
      exact ⟨t, Or.inl rfl, h⟩
    · simp only [seat_scan, if_neg h, ih, List.mem_cons]
      constructor
      · rintro ⟨u, hu, hu2⟩
        exact ⟨u, Or.inr hu, hu2⟩
      · rintro ⟨u, hu | hu, hu2⟩
        · exact absurd (hu ▸ hu2) h
        · exact ⟨u, hu, hu2⟩

theorem seat_scan_zero_or_one (s : Int) (ts : List Ticket) :
    seat_scan s ts = 0 ∨ seat_scan s ts = 1 := by
  induction ts with
  | nil => simp [seat_scan]
  | cons t rest ih =>
    by_cases h : t.active ≠ 0 ∧ t.seat_no = s
    · simp [seat_scan, h]
    · simpa only [seat_scan, if_neg h] using ih

theorem seat_is_taken_eq_one_iff (s : Int) (d : DataFile) :
    seat_is_taken s d = 1 ↔ seat_held d s := by
  cases d with
  | none => simp [seat_is_taken, seat_held, records]
  | some ts => simpa [seat_is_taken, seat_held, records] using seat_scan_eq_one_iff s ts

theorem seat_is_taken_zero_or_one (s : Int) (d : DataFile) :
    seat_is_taken s d = 0 ∨ seat_is_taken s d = 1 := by
  cases d with
  | none => simp [seat_is_taken]
  | some ts => simpa [seat_is_taken] using seat_scan_zero_or_one s ts

theorem seat_is_taken_eq_zero_iff (s : Int) (d : DataFile) :
    seat_is_taken s d = 0 ↔ ¬ seat_held d s := by
  rw [← seat_is_taken_eq_one_iff]
  rcases seat_is_taken_zero_or_one s d with h | h <;> simp [h]

/-- The seat loop started at `s ≥ 0` with `n` iterations left: it either finds every
seat of `s, ..., s + n - 1` held and returns `-1`, or returns the first free one. -/
theorem next_seat_loop_cases (d : DataFile) (n : Nat) (s : Int) (hs : 0 ≤ s) :
    (next_seat_loop d n s = -1 ∧ ∀ k, s ≤ k → k < s + n → seat_held d k) ∨
    (s ≤ next_seat_loop d n s ∧ next_seat_loop d n s < s + n ∧
      ¬ seat_held d (next_seat_loop d n s) ∧
      ∀ k, s ≤ k → k < next_seat_loop d n s → seat_held d k) := by
  induction n generalizing s with
  | zero =>
    left
    refine ⟨rfl, fun k h1 h2 => ?_⟩
    simp at h2
    omega
  | succ n ih =>
    by_cases h : seat_is_taken s d = 0
    · right
      simp only [next_seat_loop, if_pos h]
      refine ⟨le_refl _, by push_cast; omega, (seat_is_taken_eq_zero_iff s d).1 h, ?_⟩
      intro k h1 h2
      omega
    · have hheld : seat_held d s := by
        by_contra hc
        exact h ((seat_is_taken_eq_zero_iff s d).2 hc)
      simp only [next_seat_loop, if_neg h]
      rcases ih (s + 1) (by omega) with ⟨h1, h2⟩ | ⟨h1, h2, h3, h4⟩
      · left
        refine ⟨h1, fun k hk1 hk2 => ?_⟩
        by_cases hk : k = s
        · exact hk ▸ hheld
        · exact h2 k (by omega) (by push_cast at hk2; omega)
      · right
        refine ⟨by omega, by push_cast; omega, h3, fun k hk1 hk2 => ?_⟩
        by_cases hk : k = s
        · exact hk ▸ hheld
        · exact h4 k (by omega) hk2

/-- The two ways `get_next_available_seat` ends. -/
theorem get_next_available_seat_cases (d : DataFile) :
    (get_next_available_seat d = -1 ∧
      ∀ k : Int, 1 ≤ k → k ≤ (MAX_SEATS : Int) → seat_held d k) ∨
    (1 ≤ get_next_available_seat d ∧ get_next_available_seat d ≤ (MAX_SEATS : Int) ∧
      ¬ seat_held d (get_next_available_seat d) ∧
      ∀ k : Int, 1 ≤ k → k < get_next_available_seat d → seat_held d k) := by
  unfold get_next_available_seat
  rcases next_seat_loop_cases d MAX_SEATS 1 (by omega) with ⟨h1, h2⟩ | ⟨h1, h2, h3, h4⟩
  · left
    exact ⟨h1, fun k hk1 hk2 => h2 k hk1 (by omega)⟩
  · right
    exact ⟨h1, by omega, h3, h4⟩

/-- The two ways the cancellation loop ends: no record is active with the identifier and
nothing is written, or the first such record is rewritten with `active = 0`. -/
theorem cancel_scan_cases (pnr : CStr) (ts : List Ticket) :
    ((∀ t ∈ ts, ¬ cancellable pnr t) ∧ cancel_scan pnr ts = (0, ts)) ∨
    (∃ pre t post, ts = pre ++ t :: post ∧ (∀ u ∈ pre, ¬ cancellable pnr u) ∧
      cancellable pnr t ∧ cancel_scan pnr ts = (1, pre ++ { t with active := 0 } :: post)) := by
  induction ts with
  | nil => left; simp [cancel_scan]
  | cons t rest ih =>
    by_cases h : t.active ≠ 0 ∧ t.pnr = pnr
    · right
      refine ⟨[], t, rest, rfl, by simp, h, ?_⟩
      simp only [cancel_scan, if_pos h, List.nil_append]
    · rcases ih with ⟨h1, h2⟩ | ⟨pre, u, post, h1, h2, h3, h4⟩
      · left
        refine ⟨?_, by simp only [cancel_scan, if_neg h, h2]⟩
        intro x hx
        rcases List.mem_cons.1 hx with hx | hx
        · exact hx ▸ h
        · exact h1 x hx
      · right
        refine ⟨t :: pre, u, post, by simp [h1], ?_, h3, ?_⟩
        · intro x hx
          rcases List.mem_cons.1 hx with hx | hx
          · exact hx ▸ h
          · exact h2 x hx
        · simp only [cancel_scan, if_neg h, h4, List.cons_append]

/-- The same case split for `cancel_ticket_by_pnr` on a data file. -/
theorem cancel_ticket_by_pnr_cases (pnr : CStr) (opens : Bool) (d : DataFile) :
    ((opens = false ∨ ∀ t ∈ records d, ¬ cancellable pnr t) ∧
      cancel_ticket_by_pnr pnr opens d = (0, d)) ∨
    (∃ pre t post, records d = pre ++ t :: post ∧ (∀ u ∈ pre, ¬ cancellable pnr u) ∧
      cancellable pnr t ∧
      cancel_ticket_by_pnr pnr opens d =
        (1, some (pre ++ { t with active := 0 } :: post))) := by
  cases d with
  | none => left; simp [cancel_ticket_by_pnr, records]
  | some ts =>
    cases opens with
    | false => left; simp [cancel_ticket_by_pnr]
    | true =>
      rcases cancel_scan_cases pnr ts with ⟨h1, h2⟩ | ⟨pre, t, post, h1, h2, h3, h4⟩
      · left
        exact ⟨Or.inr h1, by simp only [cancel_ticket_by_pnr, h2, if_true]⟩
      · right
        exact ⟨pre, t, post, h1, h2, h3, by simp only [cancel_ticket_by_pnr, h4, if_true]⟩

/-- The four ways `book_ticket_console` ends, each with the condition that selects it. -/
theorem book_ticket_console_cases (inp : BookInput) (d : DataFile) :
    (inp.age = none ∧ book_ticket_console inp d = (d, BookOutcome.invalid_age)) ∨
    (∃ a, inp.age = some a ∧ get_next_available_seat d = -1 ∧
      book_ticket_console inp d = (d, BookOutcome.no_seats)) ∨
    (∃ a, inp.age = some a ∧ get_next_available_seat d ≠ -1 ∧ inp.append_opens = false ∧
      book_ticket_console inp d = (d, BookOutcome.save_failed)) ∨
    (∃ a, inp.age = some a ∧ get_next_available_seat d ≠ -1 ∧ inp.append_opens = true ∧
      book_ticket_console inp d =
        (some (records d ++ [new_ticket inp a (get_next_available_seat d)]),
          BookOutcome.booked (new_ticket inp a (get_next_available_seat d)))) := by
  cases hage : inp.age with
  | none => left; simp [book_ticket_console, hage]
  | some a =>
    right
    by_cases hseat : get_next_available_seat d = -1
    · left
      exact ⟨a, rfl, hseat, by simp [book_ticket_console, hage, hseat]⟩
    · right
      cases hopen : inp.append_opens with
      | false =>
        left
        exact ⟨a, rfl, hseat, rfl,
          by simp [book_ticket_console, hage, hseat, append_ticket_to_file, hopen]⟩
      | true =>
        right
        exact ⟨a, rfl, hseat, rfl,
          by simp [book_ticket_console, hage, hseat, append_ticket_to_file, hopen, new_ticket]⟩

/-- What one operation does to the records: nothing, one record appended on the seat
`get_next_available_seat` chose, or one active record rewritten with `active = 0`. -/
theorem apply_op_cases (d : DataFile) (op : Op) :
    records (apply_op d op) = records d ∨
    (∃ t, records (apply_op d op) = records d ++ [t] ∧ t.active = 1 ∧
      t.seat_no = get_next_available_seat d ∧ get_next_available_seat d ≠ -1) ∨
    (∃ pre t post, records d = pre ++ t :: post ∧ t.active ≠ 0 ∧
      records (apply_op d op) = pre ++ { t with active := 0 } :: post) := by
  cases op with
  | book inp =>
    rcases book_ticket_console_cases inp d with ⟨_, h⟩ | ⟨a, _, _, h⟩ | ⟨a, _, _, _, h⟩ |
      ⟨a, _, h1, _, h⟩
    · left; simp [apply_op, h]
    · left; simp [apply_op, h]
    · left; simp [apply_op, h]
    · right; left
      exact ⟨new_ticket inp a (get_next_available_seat d), by simp [apply_op, h, records],
        rfl, rfl, h1⟩
  | cancel pnr opens =>
    rcases cancel_ticket_by_pnr_cases pnr opens d with ⟨_, h⟩ | ⟨pre, t, post, h1, _, h3, h⟩
    · left; simp [apply_op, h]
    · right; right
      exact ⟨pre, t, post, h1, h3.1, by simp [apply_op, h, records]⟩

/-! ## Invariants of the reachable data files -/

theorem seats_distinct_deactivate (pre post : List Ticket) (t : Ticket)
    (h : seats_distinct (pre ++ t :: post)) :
    seats_distinct (pre ++ { t with active := 0 } :: post) := by
  unfold seats_distinct at *
  rw [List.pairwise_append] at h ⊢
  obtain ⟨h1, h2, h3⟩ := h
  rw [List.pairwise_cons] at h2 ⊢
  refine ⟨h1, ⟨fun b _ ha => absurd rfl ha, h2.2⟩, ?_⟩
  intro a ha b hb
  rcases List.mem_cons.1 hb with hb | hb
  · intro _ hb2
    exact absurd (hb ▸ rfl) hb2
  · exact h3 a ha b (List.mem_cons_of_mem _ hb)

theorem seats_distinct_append (ts : List Ticket) (t : Ticket) (h : seats_distinct ts)
    (hfree : ∀ u ∈ ts, u.active ≠ 0 → u.seat_no ≠ t.seat_no) :
    seats_distinct (ts ++ [t]) := by
  unfold seats_distinct at *
  rw [List.pairwise_append]
  refine ⟨h, by simp, ?_⟩
  intro a ha b hb ha2 _
  rw [List.mem_singleton.1 hb]
  exact hfree a ha ha2

/-- Every reachable data file keeps the seats of its active records distinct and the
seat of every record within `1..MAX_SEATS`. -/
theorem reachable_invariant (d : DataFile) (h : Reachable d) :
    seats_distinct (records d) ∧ seats_in_range (records d) := by
  induction h with
  | absent => simp [records, seats_distinct, seats_in_range]
  | empty => simp [records, seats_distinct, seats_in_range]
  | step d op _ ih =>
    obtain ⟨ih1, ih2⟩ := ih
    rcases apply_op_cases d op with h | ⟨t, h, _, h2, h3⟩ | ⟨pre, t, post, h1, _, h3⟩
    · rw [h]; exact ⟨ih1, ih2⟩
    · rw [h]
      rcases get_next_available_seat_cases d with ⟨g1, _⟩ | ⟨g1, g2, g3, _⟩
      · exact absurd g1 h3
      · constructor
        · apply seats_distinct_append _ _ ih1
          intro u hu hu2 hu3
          exact g3 ⟨u, hu, hu2, by rw [hu3, h2]⟩
        · intro u hu
          rcases List.mem_append.1 hu with hu | hu
          · exact ih2 u hu
          · rw [List.mem_singleton.1 hu, h2]
            exact ⟨g1, g2⟩
    · rw [h3]
      rw [h1] at ih1 ih2
      refine ⟨seats_distinct_deactivate pre post t ih1, ?_⟩
      intro u hu
      rcases List.mem_append.1 hu with hu | hu
      · exact ih2 u (List.mem_append_left _ hu)
      · rcases List.mem_cons.1 hu with hu | hu
        · rw [hu]
          exact ih2 t (List.mem_append_right _ (List.mem_cons_self _ _))
        · exact ih2 u (List.mem_append_right _ (List.mem_cons_of_mem _ hu))

/-! ## Counting -/

theorem count_scan_eq (c : Int) (ts : List Ticket) :
    count_scan c ts = c + (ts.countP is_active : Nat) := by
  induction ts generalizing c with
  | nil => simp [count_scan]
  | cons t rest ih =>
    by_cases h : t.active ≠ 0
    · have : is_active t = true := by simp [is_active, h]
      simp only [count_scan, if_pos h, ih, List.countP_cons_of_pos _ _ this]
      push_cast
      ring
    · have : ¬ (is_active t = true) := by simp [is_active, h]
      simp only [count_scan, if_neg h, ih, List.countP_cons_of_neg _ _ this]

theorem count_active_bookings_eq (d : DataFile) :
    count_active_bookings d = ((records d).countP is_active : Nat) := by
  cases d with
  | none => simp [count_active_bookings, records]
  | some ts => simp [count_active_bookings, records, count_scan_eq]

/-- Pigeonhole: when the seats of the active records are distinct and within
`1..MAX_SEATS`, and there are `MAX_SEATS` active records, every seat is held. -/
theorem all_seats_held_of_count (ts : List Ticket) (h1 : seats_distinct ts)
    (h2 : seats_in_range ts) (h3 : ts.countP is_active = MAX_SEATS) :
    ∀ k : Int, 1 ≤ k → k ≤ (MAX_SEATS : Int) → ∃ t ∈ ts, t.active ≠ 0 ∧ t.seat_no = k := by
  have hnodup : ((ts.filter is_active).map Ticket.seat_no).Nodup := by
    unfold List.Nodup
    rw [List.pairwise_map]
    refine List.Pairwise.imp_of_mem ?_ (List.Pairwise.filter is_active h1)
    intro a b ha hb hR
    have ha2 : a.active ≠ 0 := by simpa [is_active] using (List.mem_filter.1 ha).2
    have hb2 : b.active ≠ 0 := by simpa [is_active] using (List.mem_filter.1 hb).2
    exact hR ha2 hb2
  have hsub : ((ts.filter is_active).map Ticket.seat_no).toFinset ⊆
      Finset.Icc (1 : Int) (MAX_SEATS : Int) := by
    intro x hx
    rw [List.mem_toFinset, List.mem_map] at hx
    obtain ⟨t, ht, rfl⟩ := hx
    exact Finset.mem_Icc.2 (h2 t (List.mem_filter.1 ht).1)
  have hcard : (Finset.Icc (1 : Int) (MAX_SEATS : Int)).card ≤
      ((ts.filter is_active).map Ticket.seat_no).toFinset.card := by
    rw [List.toFinset_card_of_nodup hnodup, List.length_map, ← List.countP_eq_length_filter,
      h3, Int.card_Icc]
    simp
  have heq := Finset.eq_of_subset_of_card_le hsub hcard
  intro k hk1 hk2
  have hk : k ∈ ((ts.filter is_active).map Ticket.seat_no).toFinset := by
    rw [heq]
    exact Finset.mem_Icc.2 ⟨hk1, hk2⟩
  rw [List.mem_toFinset, List.mem_map] at hk
  obtain ⟨t, ht, rfl⟩ := hk
  exact ⟨t, (List.mem_filter.1 ht).1, by simpa [is_active] using (List.mem_filter.1 ht).2, rfl⟩

/-- A data file obtained by running operations from a reachable one is reachable. -/
theorem reachable_foldl (ops : List Op) (d : DataFile) (h : Reachable d) :
    Reachable (ops.foldl apply_op d) := by
  induction ops generalizing d with
  | nil => exact h
  | cons op rest ih => exact ih _ (Reachable.step d op h)

theorem count_append_active (d : DataFile) (t : Ticket) (h : t.active = 1) :
    count_active_bookings (some (records d ++ [t])) = count_active_bookings d + 1 := by
  have : is_active t = true := by simp [is_active, h]
  simp [count_active_bookings_eq, records, List.countP_cons_of_pos _ _ this]

theorem count_deactivate (d : DataFile) (pre post : List Ticket) (t : Ticket)
    (hd : records d = pre ++ t :: post) (h : t.active ≠ 0) :
    count_active_bookings (some (pre ++ { t with active := 0 } :: post)) + 1 =
      count_active_bookings d := by
  have h1 : is_active t = true := by simp [is_active, h]
  have h2 : ¬ (is_active { t with active := 0 } = true) := by simp [is_active]
  have e1 := count_active_bookings_eq d
  rw [hd] at e1
  have e2 := count_active_bookings_eq (some (pre ++ { t with active := 0 } :: post))
  simp only [records] at e2
  rw [e1, e2]
  simp only [List.countP_append, List.countP_cons_of_pos _ _ h1,
    List.countP_cons_of_neg _ _ h2]
  push_cast
  ring

/-- One operation keeps the balance: active bookings plus successful cancellations
equal successful bookings. -/
theorem run_op_balance (st : RunState) (op : Op)
    (h : count_active_bookings st.file + (st.cancelled : Int) = (st.booked : Int)) :
    count_active_bookings (run_op st op).file + ((run_op st op).cancelled : Int) =
      ((run_op st op).booked : Int) := by
  cases op with
  | book inp =>
    rcases book_ticket_console_cases inp st.file with ⟨_, hb⟩ | ⟨a, _, _, hb⟩ |
      ⟨a, _, _, _, hb⟩ | ⟨a, _, _, _, hb⟩
    · simpa [run_op, hb] using h
    · simpa [run_op, hb] using h
    · simpa [run_op, hb] using h
    · simp only [run_op, hb]
      rw [count_append_active _ _ rfl]
      push_cast
      omega
  | cancel pnr opens =>
    rcases cancel_ticket_by_pnr_cases pnr opens st.file with ⟨_, hc⟩ | ⟨pre, t, post, h1, _, h3, hc⟩
    · simpa [run_op, hc] using h
    · have := count_deactivate st.file pre post t h1 h3.1
      simp only [run_op, hc, if_true]
      push_cast
      omega

theorem run_ops_balance (ops : List Op) (st : RunState)
    (h : count_active_bookings st.file + (st.cancelled : Int) = (st.booked : Int)) :
    count_active_bookings (run_ops st ops).file + ((run_ops st ops).cancelled : Int) =
      ((run_ops st ops).booked : Int) := by
  induction ops generalizing st with
  | nil => exact h
  | cons op rest ih => exact ih (run_op st op) (run_op_balance st op h)

theorem getElem?_middle (pre post : List Ticket) (t : Ticket) :
    (pre ++ t :: post)[pre.length]? = some t := by
  rw [List.getElem?_append_right (le_refl _)]
  simp

/-- After a successful cancellation the search loop meets a cancelled record first. -/
theorem search_scan_deactivated (pnr : CStr) (pre post : List Ticket) (t : Ticket)
    (hpre : ∀ u ∈ pre, ¬ cancellable pnr u) (ht : t.pnr = pnr) :
    search_scan pnr (pre ++ { t with active := 0 } :: post) = SearchResult.was_cancelled := by
  induction pre with
  | nil => simp [search_scan, ht]
  | cons u rest ih =>
    have hu := hpre u (List.mem_cons_self _ _)
    have ih2 := ih (fun x hx => hpre x (List.mem_cons_of_mem _ hx))
    by_cases hp : u.pnr = pnr
    · have : u.active = 0 := by
        by_contra hc
        exact hu ⟨hc, hp⟩
      simp [search_scan, hp, this]
    · simpa [search_scan, hp] using ih2

/-- Position by position, the rewrite of a cancellation keeps a record or replaces the
cancelled one by its copy with `active = 0`. -/
theorem getElem?_deactivate (pre post : List Ticket) (t u : Ticket) (i : Nat)
    (h : (pre ++ t :: post)[i]? = some u) :
    (i ≠ pre.length ∧ (pre ++ { t with active := 0 } :: post)[i]? = some u) ∨
    (i = pre.length ∧ u = t ∧
      (pre ++ { t with active := 0 } :: post)[i]? = some { t with active := 0 }) := by
  induction pre generalizing i with
  | nil =>
    cases i with
    | zero =>
      right
      simp at h
      simp [h]
    | succ k =>
      left
      simp at h
      simp [h]
  | cons x rest ih =>
    cases i with
    | zero =>
      left
      simp at h
      simp [h]
    | succ k =>
      simp only [List.cons_append, List.getElem?_cons_succ] at h
      rcases ih k h with ⟨h1, h2⟩ | ⟨h1, h2, h3⟩
      · left
        exact ⟨by simpa using h1, by simpa using h2⟩
      · right
        exact ⟨by simpa using h1, h2, by simpa using h3⟩

/-- A free seat of `1..MAX_SEATS` below which every seat is held is the one
`get_next_available_seat` returns. -/
theorem get_next_available_seat_eq (d : DataFile) (s : Int) (hs1 : 1 ≤ s)
    (hs2 : s ≤ (MAX_SEATS : Int)) (hfree : ¬ seat_held d s)
    (hbelow : ∀ k : Int, 1 ≤ k → k < s → seat_held d k) : get_next_available_seat d = s := by
  rcases get_next_available_seat_cases d with ⟨_, h2⟩ | ⟨h1, _, h3, h4⟩
  · exact absurd (h2 s hs1 hs2) hfree
  · rcases lt_trichotomy (get_next_available_seat d) s with hlt | heq | hgt
    · exact absurd (hbelow _ h1 hlt) h3
    · exact heq
    · exact absurd (h4 s hs1 hgt) hfree

/-- Once its record is rewritten with `active = 0`, the seat of a cancelled ticket is
held by no active record, the seats of the active records being distinct. -/
theorem seat_free_after_cancel (pre post : List Ticket) (t : Ticket)
    (h : seats_distinct (pre ++ t :: post)) (ht : t.active ≠ 0) :
    ¬ seat_held (some (pre ++ { t with active := 0 } :: post)) t.seat_no := by
  unfold seats_distinct at h
  rw [List.pairwise_append, List.pairwise_cons] at h
  obtain ⟨_, ⟨h2, _⟩, h3⟩ := h
  rintro ⟨u, hu, hu1, hu2⟩
  simp only [records] at hu
  rcases List.mem_append.1 hu with hu | hu
  · exact h3 u hu t (List.mem_cons_self _ _) hu1 ht hu2
  · rcases List.mem_cons.1 hu with hu | hu
    · rw [hu] at hu1
      exact hu1 rfl
    · exact h2 u hu ht hu1 hu2.symm

/-- A booking with a numeric age and a file that opens appends the new record on the
seat `get_next_available_seat` returns, when that is not `-1`. -/
theorem book_ticket_console_booked (inp : BookInput) (d : DataFile) (a s : Int)
    (hage : inp.age = some a) (hopen : inp.append_opens = true)
    (hs : get_next_available_seat d = s) (hs2 : s ≠ -1) :
    book_ticket_console inp d =
      (some (records d ++ [new_ticket inp a s]), BookOutcome.booked (new_ticket inp a s)) := by
  subst hs
  simp [book_ticket_console, hage, hs2, append_ticket_to_file, hopen, new_ticket]

/-! ## The search loop -/

theorem search_scan_not_found_iff (id : CStr) (ts : List Ticket) :
    search_scan id ts = SearchResult.not_found ↔ ∀ t ∈ ts, t.pnr ≠ id := by
  induction ts with
  | nil => simp [search_scan]
  | cons t rest ih =>
    by_cases hp : t.pnr = id
    · by_cases ha : t.active ≠ 0
      · simp [search_scan, hp, ha]
      · simp [search_scan, hp, ha]
    · simp [search_scan, hp, ih]

/-- The search loop stops at the first record carrying the identifier, active or not. -/
theorem search_scan_first (id : CStr) (pre post : List Ticket) (t : Ticket)
    (hpre : ∀ u ∈ pre, u.pnr ≠ id) (ht : t.pnr = id) :
    search_scan id (pre ++ t :: post) =
      if t.active ≠ 0 then SearchResult.found_active t else SearchResult.was_cancelled := by
  induction pre with
  | nil => simp [search_scan, ht]
  | cons u rest ih =>
    have hu := hpre u (List.mem_cons_self _ _)
    have ih2 := ih (fun x hx => hpre x (List.mem_cons_of_mem _ hx))
    simpa [search_scan, hu] using ih2

/-! ## Loading and saving -/

theorem load_loop_eq (max : Int) (ts : List Ticket) (i : Int) (out : List Ticket) :
    load_loop max i out ts =
      (i + min (ts.length : Int) ((max - i).toNat : Int), out ++ ts.take (max - i).toNat) := by
  induction ts generalizing i out with
  | nil => simp [load_loop]
  | cons t rest ih =>
    by_cases h : i < max
    · simp only [load_loop, if_pos h, ih]
      obtain ⟨m, hm⟩ : ∃ m : Nat, (max - i).toNat = m + 1 := ⟨(max - i).toNat - 1, by omega⟩
      have hm2 : (max - (i + 1)).toNat = m := by omega
      rw [hm, hm2]
      simp only [List.take_succ_cons, List.append_assoc, List.singleton_append,
        List.length_cons, Prod.mk.injEq, and_true]
      push_cast
      omega
    · simp only [load_loop, if_neg h]
      have hz : (max - i).toNat = 0 := by omega
      simp [hz]
      omega

/-! ## The seat map -/

theorem seat_map_loop_length (d : DataFile) (n : Nat) (s : Int) :
    (seat_map_loop d n s).length = n := by
  induction n generalizing s with
  | zero => rfl
  | succ n ih => simp [seat_map_loop, ih]

theorem seat_map_loop_count_add (d : DataFile) (n : Nat) (s : Int) :
    (seat_map_loop d n s).count 'X' + (seat_map_loop d n s).count 'O' = n := by
  induction n generalizing s with
  | zero => rfl
  | succ n ih =>
    have := ih (s + 1)
    by_cases h : seat_is_taken s d ≠ 0
    · simp only [seat_map_loop, if_pos h, List.count_cons_self]
      rw [List.count_cons_of_ne (by decide)]
      omega
    · simp only [seat_map_loop, if_neg h, List.count_cons_self]
      rw [List.count_cons_of_ne (by decide)]
      omega

/-- The marks `'X'` of the seat map count the seats of the range that are taken. -/
theorem seat_map_loop_count_taken (d : DataFile) (n : Nat) (s : Int) :
    (seat_map_loop d n s).count 'X' =
      ((Finset.Ico s (s + n)).filter (fun x => seat_is_taken x d = 1)).card := by
  induction n generalizing s with
  | zero => simp [seat_map_loop]
  | succ n ih =>
    have hins : Finset.Ico s (s + ((n + 1 : Nat) : Int)) =
        insert s (Finset.Ico (s + 1) (s + 1 + (n : Int))) := by
      ext x
      simp only [Finset.mem_Ico, Finset.mem_insert]
      push_cast
      omega
    have hnot : s ∉ (Finset.Ico (s + 1) (s + 1 + (n : Int))).filter
        (fun x => seat_is_taken x d = 1) := by
      simp
    rw [hins, Finset.filter_insert]
    by_cases h : seat_is_taken s d = 1
    · have h2 : seat_is_taken s d ≠ 0 := by omega
      rw [if_pos h, Finset.card_insert_of_not_mem hnot, ← ih (s + 1)]
      simp only [seat_map_loop, if_pos h2, List.count_cons_self]
    · have h2 : ¬ seat_is_taken s d ≠ 0 := by
        rcases seat_is_taken_zero_or_one s d with h3 | h3
        · simp [h3]
        · exact absurd h3 h
      rw [if_neg h, ← ih (s + 1)]
      simp only [seat_map_loop, if_neg h2]
      rw [List.count_cons_of_ne (by decide)]

/-- The seats of the active records, listed in file order, do not repeat when the seats
of the active records are distinct. -/
theorem active_seats_nodup (ts : List Ticket) (h : seats_distinct ts) :
    ((ts.filter is_active).map Ticket.seat_no).Nodup := by
  unfold List.Nodup
  rw [List.pairwise_map]
  refine List.Pairwise.imp_of_mem ?_ (List.Pairwise.filter is_active h)
  intro a b ha hb hR
  have ha2 : a.active ≠ 0 := by simpa [is_active] using (List.mem_filter.1 ha).2
  have hb2 : b.active ≠ 0 := by simpa [is_active] using (List.mem_filter.1 hb).2
  exact hR ha2 hb2

/-- With distinct active seats, all within `1..MAX_SEATS`, the taken seats of that range
are as many as the active records. -/
theorem taken_seats_card (d : DataFile) (h1 : seats_distinct (records d))
    (h2 : seats_in_range (records d)) :
    ((Finset.Icc (1 : Int) (MAX_SEATS : Int)).filter (fun s => seat_is_taken s d = 1)).card =
      (records d).countP is_active := by
  have heq : (Finset.Icc (1 : Int) (MAX_SEATS : Int)).filter (fun s => seat_is_taken s d = 1) =
      (((records d).filter is_active).map Ticket.seat_no).toFinset := by
    ext s
    simp only [Finset.mem_filter, Finset.mem_Icc, List.mem_toFinset, List.mem_map,
      List.mem_filter, seat_is_taken_eq_one_iff, seat_held]
    constructor
    · rintro ⟨_, t, ht, ha, hs⟩
      exact ⟨t, ⟨ht, by simp [is_active, ha]⟩, hs⟩
    · rintro ⟨t, ⟨ht, ha⟩, hs⟩
      have ha2 : t.active ≠ 0 := by simpa [is_active] using ha
      exact ⟨hs ▸ h2 t ht, t, ht, ha2, hs⟩
  rw [heq, List.toFinset_card_of_nodup (active_seats_nodup _ h1), List.length_map,
    ← List.countP_eq_length_filter]

/-! ## Identifiers -/

/-- One operation adds at most the identifier of its booking to those in the file, at
the end, and changes none. -/
theorem apply_op_pnrs (d : DataFile) (op : Op) :
    List.Sublist ((records (apply_op d op)).map Ticket.pnr)
      ((records d).map Ticket.pnr ++ booking_pnrs [op]) := by
  cases op with
  | book inp =>
    rcases book_ticket_console_cases inp d with ⟨_, h⟩ | ⟨a, _, _, h⟩ | ⟨a, _, _, _, h⟩ |
      ⟨a, _, _, _, h⟩
    · simp only [apply_op, h]; exact List.sublist_append_left _ _
    · simp only [apply_op, h]; exact List.sublist_append_left _ _
    · simp only [apply_op, h]; exact List.sublist_append_left _ _
    · simp only [apply_op, h, records, booking_pnrs, List.map_append, List.map_cons,
        List.map_nil, new_ticket]
      exact List.Sublist.refl _
  | cancel pnr opens =>
    rcases cancel_ticket_by_pnr_cases pnr opens d with ⟨_, h⟩ | ⟨pre, t, post, h1, _, _, h⟩
    · simp only [apply_op, h]; exact List.sublist_append_left _ _
    · simp only [apply_op, h]
      rw [h1]
      simp only [records, booking_pnrs, List.map_append, List.map_cons, List.append_nil]
      exact List.Sublist.refl _

theorem booking_pnrs_cons (op : Op) (rest : List Op) :
    booking_pnrs (op :: rest) = booking_pnrs [op] ++ booking_pnrs rest := by
  cases op <;> simp [booking_pnrs]

/-- The identifiers in the file after a run are, in order, among those it held before
followed by those generated for the bookings of the run. -/
theorem foldl_apply_op_pnrs (ops : List Op) (d : DataFile) :
    List.Sublist ((records (ops.foldl apply_op d)).map Ticket.pnr)
      ((records d).map Ticket.pnr ++ booking_pnrs ops) := by
  induction ops generalizing d with
  | nil => simp [booking_pnrs]
  | cons op rest ih =>
    rw [List.foldl_cons, booking_pnrs_cons, ← List.append_assoc]
    exact (ih (apply_op d op)).trans ((apply_op_pnrs d op).append_right _)

/-! ## Decimal digits -/

theorem digitChar_zero : Nat.digitChar 0 = '0' := by decide

theorem toDigitsCore_small (fuel n : Nat) (ds : List Char) (hf : 0 < fuel) (hn : n < 10) :
    Nat.toDigitsCore 10 fuel n ds = Nat.digitChar n :: ds := by
  cases fuel with
  | zero => omega
  | succ f =>
    have h1 : n / 10 = 0 := by omega
    have h2 : n % 10 = n := by omega
    simp [Nat.toDigitsCore, h1, h2]

theorem toDigitsCore_step (fuel n : Nat) (ds : List Char) (hf : 0 < fuel) (hn : 10 ≤ n) :
    Nat.toDigitsCore 10 fuel n ds =
      Nat.toDigitsCore 10 (fuel - 1) (n / 10) (Nat.digitChar (n % 10) :: ds) := by
  cases fuel with
  | zero => omega
  | succ f =>
    have h1 : n / 10 ≠ 0 := by omega
    simp [Nat.toDigitsCore, h1]

/-- The decimal digits of a number below 10000, padded with zeros to four places. -/
theorem zero_pad_four (n : Nat) (h : n < 10000) :
    zero_pad 4 (Nat.toDigits 10 n) = four_digit_field n := by
  unfold Nat.toDigits
  by_cases h1 : n < 10
  · rw [toDigitsCore_small _ _ _ (by omega) h1]
    have e1 : n / 1000 = 0 := by omega
    have e2 : n / 100 % 10 = 0 := by omega
    have e3 : n / 10 % 10 = 0 := by omega
    have e4 : n % 10 = n := by omega
    simp [zero_pad, four_digit_field, e1, e2, e3, e4, List.replicate, digitChar_zero]
  · rw [toDigitsCore_step _ _ _ (by omega) (by omega)]
    by_cases h2 : n < 100
    · rw [toDigitsCore_small _ _ _ (by omega) (by omega)]
      have e1 : n / 1000 = 0 := by omega
      have e2 : n / 100 % 10 = 0 := by omega
      have e3 : n / 10 % 10 = n / 10 := by omega
      simp [zero_pad, four_digit_field, e1, e2, e3, List.replicate, digitChar_zero]
    · rw [toDigitsCore_step _ _ _ (by omega) (by omega)]
      by_cases h3 : n < 1000
      · rw [toDigitsCore_small _ _ _ (by omega) (by omega)]
        have e1 : n / 1000 = 0 := by omega
        have e2 : n / 100 % 10 = n / 10 / 10 := by omega
        have e3 : n / 10 % 10 = n / 10 % 10 := rfl
        simp [zero_pad, four_digit_field, e1, e2, List.replicate, digitChar_zero]
      · rw [toDigitsCore_step _ _ _ (by omega) (by omega),
          toDigitsCore_small _ _ _ (by omega) (by omega)]
        have e1 : n / 1000 = n / 10 / 10 / 10 := by omega
        have e2 : n / 100 % 10 = n / 10 / 10 % 10 := by omega
        simp [zero_pad, four_digit_field, e1, e2]

/-- The decimal digits of a number below 100, padded with zeros to two places. -/
theorem zero_pad_two (n : Nat) (h : n < 100) :
    zero_pad 2 (Nat.toDigits 10 n) = two_digit_field n := by
  unfold Nat.toDigits
  by_cases h1 : n < 10
  · rw [toDigitsCore_small _ _ _ (by omega) h1]
    have e1 : n / 10 = 0 := by omega
    have e4 : n % 10 = n := by omega
    simp [zero_pad, two_digit_field, e1, e4, List.replicate, digitChar_zero]
  · rw [toDigitsCore_step _ _ _ (by omega) (by omega),
      toDigitsCore_small _ _ _ (by omega) (by omega)]
    simp [zero_pad, two_digit_field]

theorem printf_0d_two (v : Int) (h0 : 0 ≤ v) (h : v < 100) :
    printf_0d 2 v = two_digit_field v.toNat := by
  unfold printf_0d
  rw [if_neg (by omega)]
  exact zero_pad_two _ (by omega)

theorem printf_0d_four (n : Nat) (h : n < 10000) :
    printf_0d 4 (n : Int) = four_digit_field n := by
  unfold printf_0d
  rw [if_neg (by omega), Int.toNat_ofNat]
  exact zero_pad_four n h

theorem digitChar_inj : ∀ a < 10, ∀ b < 10, Nat.digitChar a = Nat.digitChar b → a = b := by
  decide

theorem two_digit_field_inj (a b : Nat) (ha : a < 100) (hb : b < 100)
    (h : two_digit_field a = two_digit_field b) : a = b := by
  simp only [two_digit_field, List.cons.injEq, and_true] at h
  have h1 := digitChar_inj (a / 10) (by omega) (b / 10) (by omega) h.1
  have h2 := digitChar_inj (a % 10) (by omega) (b % 10) (by omega) h.2
  omega

theorem four_digit_field_inj (a b : Nat) (ha : a < 10000) (hb : b < 10000)
    (h : four_digit_field a = four_digit_field b) : a = b := by
  simp only [four_digit_field, List.cons.injEq, and_true] at h
  have h1 := digitChar_inj (a / 1000) (by omega) (b / 1000) (by omega) h.1
  have h2 := digitChar_inj (a / 100 % 10) (by omega) (b / 100 % 10) (by omega) h.2.1
  have h3 := digitChar_inj (a / 10 % 10) (by omega) (b / 10 % 10) (by omega) h.2.2.1
  have h4 := digitChar_inj (a % 10) (by omega) (b % 10) (by omega) h.2.2.2
  omega

/-- Within the ranges of the clock fields `generate_pnr` writes the identifier format in
full: the 31 characters `snprintf` may keep are more than the 15 it needs. -/
theorem generate_pnr_eq_format (tm : Tm) (rand_value : Nat)
    (hmon : 0 ≤ tm.tm_mon + 1 ∧ tm.tm_mon + 1 < 100)
    (hday : 0 ≤ tm.tm_mday ∧ tm.tm_mday < 100)
    (hhour : 0 ≤ tm.tm_hour ∧ tm.tm_hour < 100)
    (hmin : 0 ≤ tm.tm_min ∧ tm.tm_min < 100) :
    generate_pnr tm rand_value PNR_LEN =
      pnr_format (tm.tm_mon + 1).toNat tm.tm_mday.toNat tm.tm_hour.toNat tm.tm_min.toNat
        (rand_value % 10000) := by
  unfold generate_pnr
  simp only []
  rw [printf_0d_two _ hmon.1 hmon.2, printf_0d_two _ hday.1 hday.2,
    printf_0d_two _ hhour.1 hhour.2, printf_0d_two _ hmin.1 hmin.2,
    printf_0d_four _ (Nat.mod_lt _ (by decide))]
  simp [pnr_format, two_digit_field, four_digit_field, PNR_LEN]

theorem pnr_format_inj (m d h mi s m2 d2 h2 mi2 s2 : Nat) (hm : m < 100) (hd : d < 100)
    (hh : h < 100) (hmi : mi < 100) (hs : s < 10000) (hm2 : m2 < 100) (hd2 : d2 < 100)
    (hh2 : h2 < 100) (hmi2 : mi2 < 100) (hs2 : s2 < 10000)
    (e : pnr_format m d h mi s = pnr_format m2 d2 h2 mi2 s2) :
    m = m2 ∧ d = d2 ∧ h = h2 ∧ mi = mi2 ∧ s = s2 := by
  simp only [pnr_format, two_digit_field, four_digit_field, List.cons_append, List.nil_append,
    List.cons.injEq, true_and, and_true] at e
  obtain ⟨a1, a2, b1, b2, c1, c2, d1, d2', e1, e2, e3, e4⟩ := e
  refine ⟨two_digit_field_inj m m2 hm hm2 (by simp [two_digit_field, a1, a2]),
    two_digit_field_inj d d2 hd hd2 (by simp [two_digit_field, b1, b2]),
    two_digit_field_inj h h2 hh hh2 (by simp [two_digit_field, c1, c2]),
    two_digit_field_inj mi mi2 hmi hmi2 (by simp [two_digit_field, d1, d2']),
    four_digit_field_inj s s2 hs hs2 (by simp [four_digit_field, e1, e2, e3, e4])⟩

/-! ## Console input -/

/-- C2: for every data file, `get_next_available_seat` returns the least seat number `s`
with `1 ≤ s ≤ MAX_SEATS` that no active record holds (whenever there is one, and any
value other than `-1` it returns is that seat), and it returns `-1` exactly when every
seat number of `1..MAX_SEATS` is held by an active record. -/
theorem get_next_available_seat_least_free (d : DataFile) :
    (∀ s : Int, 1 ≤ s → s ≤ (MAX_SEATS : Int) → ¬ seat_held d s →
        (∀ k : Int, 1 ≤ k → k < s → seat_held d k) → get_next_available_seat d = s) ∧
    (get_next_available_seat d ≠ -1 →
        1 ≤ get_next_available_seat d ∧ get_next_available_seat d ≤ (MAX_SEATS : Int) ∧
        ¬ seat_held d (get_next_available_seat d) ∧
        ∀ k : Int, 1 ≤ k → k < get_next_available_seat d → seat_held d k) ∧
    (get_next_available_seat d = -1 ↔
        ∀ s : Int, 1 ≤ s → s ≤ (MAX_SEATS : Int) → seat_held d s) := by
  rcases get_next_available_seat_cases d with ⟨h1, h2⟩ | ⟨h1, h2, h3, h4⟩
  · refine ⟨fun s hs1 hs2 hfree _ => absurd (h2 s hs1 hs2) hfree, fun h => absurd h1 h,
      fun _ => h2, fun _ => h1⟩
  · refine ⟨fun s hs1 hs2 hfree hleast => ?_, fun _ => ⟨h1, h2, h3, h4⟩, fun h => ?_, fun h => ?_⟩
    · rcases lt_trichotomy (get_next_available_seat d) s with hlt | heq | hgt
      · exact absurd (hleast _ h1 hlt) h3
      · exact heq
      · exact absurd (h4 s hs1 hgt) hfree
    · omega
    · exact absurd (h _ h1 h2) h3

/-- C2, at a concrete file: of three bookings the first is cancelled, so seat 1 is the
least free seat and the one returned. -/
theorem get_next_available_seat_least_free_witness :
    ¬ seat_held (cancel_ticket_by_pnr sample_pnr true (book_many 3)).2 1 ∧
    get_next_available_seat (cancel_ticket_by_pnr sample_pnr true (book_many 3)).2 = 1 :=
  have hfree : ¬ seat_held (cancel_ticket_by_pnr sample_pnr true (book_many 3)).2 1 := by
    unfold seat_held
    decide
  ⟨hfree,
    (get_next_available_seat_least_free (cancel_ticket_by_pnr sample_pnr true (book_many 3)).2).1 1
      (by decide) (by decide) hfree (fun k hk1 hk2 => by omega)⟩

/-- C1: seat uniqueness is an invariant. In every data file reachable from an absent or
empty one by bookings and cancellations, two records at different positions that are
both active never carry the same seat number. -/
theorem seat_uniqueness (d : DataFile) (h : Reachable d) (i j : Nat) (ti tj : Ticket)
    (hij : i ≠ j) (hi : (records d)[i]? = some ti) (hj : (records d)[j]? = some tj)
    (hai : ti.active ≠ 0) (haj : tj.active ≠ 0) : ti.seat_no ≠ tj.seat_no := by
  have hp := (reachable_invariant d h).1
  unfold seats_distinct at hp
  rw [List.pairwise_iff_getElem] at hp
  obtain ⟨hi1, hi2⟩ := List.getElem?_eq_some.1 hi
  obtain ⟨hj1, hj2⟩ := List.getElem?_eq_some.1 hj
  rcases Nat.lt_or_gt_of_ne hij with hlt | hgt
  · have := hp i j hi1 hj1 hlt
    rw [hi2, hj2] at this
    exact this hai haj
  · have := hp j i hj1 hi1 hgt
    rw [hi2, hj2] at this
    exact fun e => this haj hai e.symm

/-- C1, at a concrete run: two bookings from an absent file give two active records,
on different seats. -/
theorem seat_uniqueness_witness :
    Reachable (book_many 2) ∧
    (records (book_many 2))[0]? = some (new_ticket sample_input 30 1) ∧
    (records (book_many 2))[1]? = some (new_ticket sample_input 30 2) ∧
    (new_ticket sample_input 30 1).seat_no ≠ (new_ticket sample_input 30 2).seat_no :=
  ⟨reachable_foldl _ none Reachable.absent, by decide, by decide,
    seat_uniqueness (book_many 2) (reachable_foldl _ none Reachable.absent) 0 1
      (new_ticket sample_input 30 1) (new_ticket sample_input 30 2)
      (by decide) (by decide) (by decide) (by decide) (by decide)⟩

/-- C3: in every reachable data file whose count of active bookings equals `MAX_SEATS`,
a booking attempt with any name, gender and numeric age finds no seat
(`get_next_available_seat` returns `-1`), ends in "no seats available" and leaves the
data file as it was. -/
theorem booking_when_full (d : DataFile) (h : Reachable d)
    (hfull : count_active_bookings d = (MAX_SEATS : Int)) (inp : BookInput) (a : Int)
    (hage : inp.age = some a) :
    get_next_available_seat d = -1 ∧
    book_ticket_console inp d = (d, BookOutcome.no_seats) := by
  obtain ⟨h1, h2⟩ := reachable_invariant d h
  rw [count_active_bookings_eq] at hfull
  have hall := all_seats_held_of_count (records d) h1 h2 (by exact_mod_cast hfull)
  have hnone : get_next_available_seat d = -1 := by
    rcases get_next_available_seat_cases d with ⟨g1, _⟩ | ⟨g1, g2, g3, _⟩
    · exact g1
    · exact absurd (hall _ g1 g2) g3
  refine ⟨hnone, ?_⟩
  simp [book_ticket_console, hage, hnone]

set_option maxRecDepth 1000000 in
/-- C3, at a concrete run: after `MAX_SEATS` bookings from an absent file one more
booking attempt changes nothing. -/
theorem booking_when_full_witness :
    count_active_bookings (book_many 100) = (MAX_SEATS : Int) ∧
    get_next_available_seat (book_many 100) = -1 ∧
    book_ticket_console sample_input (book_many 100) =
      (book_many 100, BookOutcome.no_seats) :=
  have hfull : count_active_bookings (book_many 100) = (MAX_SEATS : Int) := by decide!
  ⟨hfull, booking_when_full (book_many 100) (reachable_foldl _ none Reachable.absent) hfull
    sample_input 30 rfl⟩

/-- C4: after any finite sequence of bookings and cancellations run from an absent or an
empty data file, `count_active_bookings` equals the number of bookings that succeeded
minus the number of calls of `cancel_ticket_by_pnr` that returned 1 (which never exceeds
the former); this holds for any number of successful bookings. -/
theorem count_active_after_run (ops : List Op) :
    (count_active_bookings (run_ops ⟨none, 0, 0⟩ ops).file =
        ((run_ops ⟨none, 0, 0⟩ ops).booked : Int) - ((run_ops ⟨none, 0, 0⟩ ops).cancelled : Int) ∧
      (run_ops ⟨none, 0, 0⟩ ops).cancelled ≤ (run_ops ⟨none, 0, 0⟩ ops).booked) ∧
    (count_active_bookings (run_ops ⟨some [], 0, 0⟩ ops).file =
        ((run_ops ⟨some [], 0, 0⟩ ops).booked : Int) -
          ((run_ops ⟨some [], 0, 0⟩ ops).cancelled : Int) ∧
      (run_ops ⟨some [], 0, 0⟩ ops).cancelled ≤ (run_ops ⟨some [], 0, 0⟩ ops).booked) := by
  have h1 := run_ops_balance ops ⟨none, 0, 0⟩ (by simp [count_active_bookings])
  have h2 := run_ops_balance ops ⟨some [], 0, 0⟩ (by simp [count_active_bookings, count_scan])
  have p1 := count_active_bookings_eq (run_ops ⟨none, 0, 0⟩ ops).file
  have p2 := count_active_bookings_eq (run_ops ⟨some [], 0, 0⟩ ops).file
  refine ⟨⟨by omega, by omega⟩, ⟨by omega, by omega⟩⟩

/-- C4, at a concrete run: two bookings that share an identifier, two cancellations of
that identifier (each deactivates one of the two records), one more booking. Three
bookings succeed, two cancellations return 1, one booking is active. -/
theorem count_active_after_run_witness :
    (run_ops ⟨none, 0, 0⟩ sample_ops).booked = 3 ∧
    (run_ops ⟨none, 0, 0⟩ sample_ops).cancelled = 2 ∧
    count_active_bookings (run_ops ⟨none, 0, 0⟩ sample_ops).file =
      ((run_ops ⟨none, 0, 0⟩ sample_ops).booked : Int) -
        ((run_ops ⟨none, 0, 0⟩ sample_ops).cancelled : Int) :=
  ⟨by decide, by decide, (count_active_after_run sample_ops).1.1⟩

/-- C5, as stated, fails: the file holds an active record with the identifier but does
not open for updating (a read-only file); the call returns 0, not 1, and writes
nothing. -/
theorem cancel_active_record_counterexample :
    (∃ t ∈ records (book_many 1), t.pnr = sample_pnr ∧ t.active ≠ 0) ∧
    (cancel_ticket_by_pnr sample_pnr false (book_many 1)).1 = 0 ∧
    (cancel_ticket_by_pnr sample_pnr false (book_many 1)).1 ≠ 1 ∧
    (cancel_ticket_by_pnr sample_pnr false (book_many 1)).2 = book_many 1 :=
  ⟨⟨new_ticket sample_input 30 1, by decide, by decide, by decide⟩, by decide, by decide,
    by decide⟩

/-- C5, amended: when some record is active with identifier `id` and the data file opens
for updating, `cancel_ticket_by_pnr id` returns 1 and the data file keeps its length and
changes at exactly one position `i`, that of the first record (in file order) active with
`pnr = id`: there `active` becomes 0 while `pnr`, `name`, `age`, `gender` and `seat_no`
stay, and every other position keeps its record. When the file does not open for
updating the call returns 0 and the data file is as before. -/
theorem cancel_active_record (d : DataFile) (id : CStr)
    (h : ∃ t ∈ records d, t.pnr = id ∧ t.active ≠ 0) :
    ((cancel_ticket_by_pnr id true d).1 = 1 ∧
      (records (cancel_ticket_by_pnr id true d).2).length = (records d).length ∧
      ∃ (i : Nat) (t : Ticket),
        (records d)[i]? = some t ∧ t.active ≠ 0 ∧ t.pnr = id ∧
        (∀ (j : Nat) (u : Ticket), j < i → (records d)[j]? = some u →
          ¬ (u.active ≠ 0 ∧ u.pnr = id)) ∧
        (cancel_ticket_by_pnr id true d).2 =
          some ((records d).set i { t with active := 0 }) ∧
        (records (cancel_ticket_by_pnr id true d).2)[i]? =
          some { pnr := t.pnr, name := t.name, age := t.age, gender := t.gender,
                 seat_no := t.seat_no, active := 0 } ∧
        (records (cancel_ticket_by_pnr id true d).2)[i]? ≠ (records d)[i]? ∧
        ∀ j : Nat, j ≠ i →
          (records (cancel_ticket_by_pnr id true d).2)[j]? = (records d)[j]?) ∧
    cancel_ticket_by_pnr id false d = (0, d) := by
  constructor
  · rcases cancel_ticket_by_pnr_cases id true d with ⟨h1, _⟩ | ⟨pre, t, post, h1, h2, h3, hc⟩
    · obtain ⟨t, ht, ht1, ht2⟩ := h
      rcases h1 with h1 | h1
      · exact absurd h1 (by decide)
      · exact absurd ⟨ht2, ht1⟩ (h1 t ht)
    · have hi : (records d)[pre.length]? = some t := by
        rw [h1]; exact getElem?_middle pre post t
      have hnew : (pre ++ { t with active := 0 } :: post)[pre.length]? =
          some { t with active := 0 } := getElem?_middle pre post _
      refine ⟨by rw [hc], by rw [hc, h1]; simp [records], pre.length, t, hi, h3.1, h3.2,
        ?_, ?_, ?_, ?_, ?_⟩
      · intro j u hj hu
        rw [h1, List.getElem?_append_left hj] at hu
        obtain ⟨hj2, hu2⟩ := List.getElem?_eq_some.1 hu
        exact h2 u (hu2 ▸ List.getElem_mem _)
      · rw [hc, h1]; simp
      · rw [hc]; exact hnew
      · rw [hc, hi]
        simp only [records]
        rw [hnew]
        intro e
        have := congrArg Ticket.active (Option.some.inj e)
        exact h3.1 this.symm
      · intro j hj
        rw [hc, h1]
        simp only [records]
        rcases Nat.lt_or_gt_of_ne hj with hlt | hgt
        · rw [List.getElem?_append_left hlt, List.getElem?_append_left hlt]
        · rw [List.getElem?_append_right (le_of_lt hgt),
            List.getElem?_append_right (le_of_lt hgt)]
          obtain ⟨m, hm⟩ : ∃ m, j - pre.length = m + 1 := ⟨j - pre.length - 1, by omega⟩
          rw [hm]
          simp
  · cases d with
    | none => rfl
    | some ts => simp [cancel_ticket_by_pnr]

/-- C5 amended, at a concrete file: two active records carry the same identifier and the
file opens for updating; the call returns 1 and the file keeps its two records. -/
theorem cancel_active_record_witness :
    (∃ t ∈ records (book_many 2), t.pnr = sample_pnr ∧ t.active ≠ 0) ∧
    (cancel_ticket_by_pnr sample_pnr true (book_many 2)).1 = 1 ∧
    (records (cancel_ticket_by_pnr sample_pnr true (book_many 2)).2).length =
      (records (book_many 2)).length :=
  have hyp : ∃ t ∈ records (book_many 2), t.pnr = sample_pnr ∧ t.active ≠ 0 :=
    ⟨new_ticket sample_input 30 1, by decide, by decide, by decide⟩
  ⟨hyp, (cancel_active_record (book_many 2) sample_pnr hyp).1.1,
    (cancel_active_record (book_many 2) sample_pnr hyp).1.2.1⟩

/-- C6: round trip of cancel and search. Whenever `cancel_ticket_by_pnr id` returns 1,
the search for `id` on the resulting data file reports "was cancelled": neither
"not found" nor the fields of an active record. -/
theorem search_after_cancel (d : DataFile) (id : CStr) (opens : Bool)
    (h : (cancel_ticket_by_pnr id opens d).1 = 1) :
    search_by_pnr_console id (cancel_ticket_by_pnr id opens d).2 =
      SearchResult.was_cancelled := by
  rcases cancel_ticket_by_pnr_cases id opens d with ⟨_, hc⟩ | ⟨pre, t, post, _, h2, h3, hc⟩
  · rw [hc] at h
    simp at h
  · rw [hc]
    exact search_scan_deactivated id pre post t h2 h3.2

/-- C6, at a concrete file holding two active records with the same identifier. -/
theorem search_after_cancel_witness :
    (cancel_ticket_by_pnr sample_pnr true (book_many 2)).1 = 1 ∧
    search_by_pnr_console sample_pnr (cancel_ticket_by_pnr sample_pnr true (book_many 2)).2 =
      SearchResult.was_cancelled :=
  ⟨by decide, search_after_cancel (book_many 2) sample_pnr true (by decide)⟩

/-- C7: when no record is both active and carrying `id` (the identifier is absent, or
every record with it is already cancelled), `cancel_ticket_by_pnr id` returns 0 and the
data file is exactly as before, whether or not the file opens for updating; on an absent
file it returns 0 and the file stays absent. -/
theorem cancel_without_active_match (d : DataFile) (id : CStr) (opens : Bool)
    (h : ∀ t ∈ records d, ¬ (t.pnr = id ∧ t.active ≠ 0)) :
    cancel_ticket_by_pnr id opens d = (0, d) ∧
    cancel_ticket_by_pnr id opens none = (0, none) := by
  refine ⟨?_, rfl⟩
  rcases cancel_ticket_by_pnr_cases id opens d with ⟨_, hc⟩ | ⟨pre, t, post, h1, _, h3, _⟩
  · exact hc
  · exact absurd ⟨h3.2, h3.1⟩ (h t (by rw [h1]; simp))

/-- C7, at a concrete file: the only record carrying the identifier is already
cancelled. -/
theorem cancel_without_active_match_witness :
    (∀ t ∈ records (cancel_ticket_by_pnr sample_pnr true (book_many 1)).2,
      ¬ (t.pnr = sample_pnr ∧ t.active ≠ 0)) ∧
    cancel_ticket_by_pnr sample_pnr true (cancel_ticket_by_pnr sample_pnr true (book_many 1)).2 =
      (0, (cancel_ticket_by_pnr sample_pnr true (book_many 1)).2) :=
  ⟨by decide,
    (cancel_without_active_match (cancel_ticket_by_pnr sample_pnr true (book_many 1)).2
      sample_pnr true (by decide)).1⟩

/-- C9: soft delete and position stability. After any single operation (a booking
attempt or a call of `cancel_ticket_by_pnr`, with any arguments) the data file is at
least as long as before, and every record it held is still at its position with the same
`pnr`, `name`, `age`, `gender` and `seat_no`; its `active` field is unchanged or has gone
from non-zero to 0. -/
theorem soft_delete_position_stable (d : DataFile) (op : Op) :
    (records d).length ≤ (records (apply_op d op)).length ∧
    ∀ (i : Nat) (t : Ticket), (records d)[i]? = some t →
      ∃ u : Ticket, (records (apply_op d op))[i]? = some u ∧
        u.pnr = t.pnr ∧ u.name = t.name ∧ u.age = t.age ∧ u.gender = t.gender ∧
        u.seat_no = t.seat_no ∧ (u.active = t.active ∨ (t.active ≠ 0 ∧ u.active = 0)) := by
  rcases apply_op_cases d op with h | ⟨x, h, _, _, _⟩ | ⟨pre, x, post, h1, h2, h3⟩
  · rw [h]
    exact ⟨le_refl _, fun i t hi => ⟨t, hi, rfl, rfl, rfl, rfl, rfl, Or.inl rfl⟩⟩
  · rw [h]
    refine ⟨by simp, fun i t hi => ⟨t, ?_, rfl, rfl, rfl, rfl, rfl, Or.inl rfl⟩⟩
    rw [List.getElem?_append_left (List.getElem?_eq_some.1 hi).1]
    exact hi
  · rw [h3, h1]
    refine ⟨by simp, fun i t hi => ?_⟩
    rcases getElem?_deactivate pre post x t i hi with ⟨_, hu⟩ | ⟨_, hx, hu⟩
    · exact ⟨t, hu, rfl, rfl, rfl, rfl, rfl, Or.inl rfl⟩
    · subst hx
      exact ⟨_, hu, rfl, rfl, rfl, rfl, rfl, Or.inr ⟨h2, rfl⟩⟩

/-- C9, at a concrete file: cancelling one of two bookings keeps both records in place. -/
theorem soft_delete_position_stable_witness :
    (records (book_many 2)).length ≤
      (records (apply_op (book_many 2) (Op.cancel sample_pnr true))).length ∧
    (records (book_many 2))[0]? = some (new_ticket sample_input 30 1) ∧
    (records (apply_op (book_many 2) (Op.cancel sample_pnr true)))[0]? =
      some { new_ticket sample_input 30 1 with active := 0 } :=
  ⟨(soft_delete_position_stable (book_many 2) (Op.cancel sample_pnr true)).1, by decide, by decide⟩

/-- C10: when `get_next_available_seat` returns a seat `s` other than `-1`, the age is
numeric and the append succeeds, a booking yields exactly the old records, unchanged and
in order, followed by one new record: `active = 1`, `seat_no = s`, `pnr` the generated
identifier, the given age, the name cut to `NAME_LEN - 1 = 49` characters and the gender
cut to `GENDER_LEN - 1 = 9` characters; it reports that record as booked. -/
theorem booking_appends_record (d : DataFile) (inp : BookInput) (a : Int)
    (hseat : get_next_available_seat d ≠ -1) (hage : inp.age = some a)
    (hopen : inp.append_opens = true) :
    book_ticket_console inp d =
      (some (records d ++
          [{ pnr := generate_pnr inp.tm inp.rand_value 32
             name := inp.name_line.take 49
             age := a
             gender := inp.gender_line.take 9
             seat_no := get_next_available_seat d
             active := 1 }]),
        BookOutcome.booked
          { pnr := generate_pnr inp.tm inp.rand_value 32
            name := inp.name_line.take 49
            age := a
            gender := inp.gender_line.take 9
            seat_no := get_next_available_seat d
            active := 1 }) := by
  simp [book_ticket_console, hage, hseat, append_ticket_to_file, hopen, strncpy_zeroed,
    NAME_LEN, GENDER_LEN, PNR_LEN]

/-- C10, at a concrete file: a second booking on a file of one record. -/
theorem booking_appends_record_witness :
    get_next_available_seat (book_many 1) ≠ -1 ∧
    book_ticket_console sample_input (book_many 1) =
      (some (records (book_many 1) ++
          [{ pnr := ['P', 'N', 'R', '1', '0', '3', '0', '1', '3', '0', '5', '0', '0', '4', '1']
             name := ['A', 'n', 'n']
             age := 30
             gender := ['F']
             seat_no := 2
             active := 1 }]),
        BookOutcome.booked
          { pnr := ['P', 'N', 'R', '1', '0', '3', '0', '1', '3', '0', '5', '0', '0', '4', '1']
            name := ['A', 'n', 'n']
            age := 30
            gender := ['F']
            seat_no := 2
            active := 1 }) :=
  ⟨by decide, booking_appends_record (book_many 1) sample_input 30 (by decide) rfl rfl⟩

/-- C8: freed seats are re-allocated first-fit ascending. (1) In every reachable data
file, when `cancel_ticket_by_pnr` has just deactivated the record holding seat `k` (the
record at some position `i` was active on seat `k` and is inactive afterwards) and the
seats `1..k-1` are all held by active records, `get_next_available_seat` returns `k`, so
the next successful booking is appended on seat `k`. (2) From a file without records,
three bookings receive the seats 1, 2, 3 in that order; once the ticket on seat 2 is
cancelled through its identifier (which differs from that of the first ticket, the file
opening for updating), the fourth booking receives seat 2 and `count_active_bookings` is
then 3. -/
theorem freed_seat_reallocated :
    (∀ (d : DataFile) (id : CStr) (opens : Bool) (k : Int) (i : Nat) (t u : Ticket)
        (inp : BookInput) (a : Int),
      Reachable d →
      (cancel_ticket_by_pnr id opens d).1 = 1 →
      (records d)[i]? = some t → t.active ≠ 0 → t.seat_no = k →
      (records (cancel_ticket_by_pnr id opens d).2)[i]? = some u → u.active = 0 →
      (∀ s : Int, 1 ≤ s → s < k → seat_held (cancel_ticket_by_pnr id opens d).2 s) →
      inp.age = some a → inp.append_opens = true →
      get_next_available_seat (cancel_ticket_by_pnr id opens d).2 = k ∧
      book_ticket_console inp (cancel_ticket_by_pnr id opens d).2 =
        (some (records (cancel_ticket_by_pnr id opens d).2 ++ [new_ticket inp a k]),
          BookOutcome.booked (new_ticket inp a k))) ∧
    (∀ (d0 : DataFile) (i1 i2 i3 i4 : BookInput) (a1 a2 a3 a4 : Int),
      records d0 = [] →
      i1.age = some a1 → i2.age = some a2 → i3.age = some a3 → i4.age = some a4 →
      i1.append_opens = true → i2.append_opens = true → i3.append_opens = true →
      i4.append_opens = true →
      (new_ticket i1 a1 1).pnr ≠ (new_ticket i2 a2 2).pnr →
      book_ticket_console i1 d0 =
        (some [new_ticket i1 a1 1], BookOutcome.booked (new_ticket i1 a1 1)) ∧
      book_ticket_console i2 (some [new_ticket i1 a1 1]) =
        (some [new_ticket i1 a1 1, new_ticket i2 a2 2],
          BookOutcome.booked (new_ticket i2 a2 2)) ∧
      book_ticket_console i3 (some [new_ticket i1 a1 1, new_ticket i2 a2 2]) =
        (some [new_ticket i1 a1 1, new_ticket i2 a2 2, new_ticket i3 a3 3],
          BookOutcome.booked (new_ticket i3 a3 3)) ∧
      cancel_ticket_by_pnr (new_ticket i2 a2 2).pnr true
          (some [new_ticket i1 a1 1, new_ticket i2 a2 2, new_ticket i3 a3 3]) =
        (1, some [new_ticket i1 a1 1, { new_ticket i2 a2 2 with active := 0 },
          new_ticket i3 a3 3]) ∧
      book_ticket_console i4
          (some [new_ticket i1 a1 1, { new_ticket i2 a2 2 with active := 0 },
            new_ticket i3 a3 3]) =
        (some [new_ticket i1 a1 1, { new_ticket i2 a2 2 with active := 0 },
            new_ticket i3 a3 3, new_ticket i4 a4 2],
          BookOutcome.booked (new_ticket i4 a4 2)) ∧
      (new_ticket i4 a4 2).seat_no = 2 ∧
      count_active_bookings
          (some [new_ticket i1 a1 1, { new_ticket i2 a2 2 with active := 0 },
            new_ticket i3 a3 3, new_ticket i4 a4 2]) = 3) := by
  constructor
  · intro d id opens k i t u inp a hreach hret hi hact hk hi2 hu hbelow hage hopen
    obtain ⟨inv1, inv2⟩ := reachable_invariant d hreach
    rcases cancel_ticket_by_pnr_cases id opens d with ⟨_, hc⟩ | ⟨pre, x, post, h1, _, h3, hc⟩
    · rw [hc] at hret
      simp at hret
    · simp only [hc, records] at hi2 hbelow ⊢
      rw [h1] at hi inv1 inv2
      have htx : t = x := by
        rcases getElem?_deactivate pre post x t i hi with ⟨_, h5⟩ | ⟨_, h5, _⟩
        · rw [h5] at hi2
          rw [Option.some.inj hi2] at hact
          exact absurd hu hact
        · exact h5
      subst htx
      subst hk
      have hfree := seat_free_after_cancel pre post t inv1 hact
      have hrange := inv2 t (List.mem_append_right _ (List.mem_cons_self _ _))
      have hnext := get_next_available_seat_eq _ t.seat_no hrange.1 hrange.2 hfree hbelow
      refine ⟨hnext, ?_⟩
      rw [book_ticket_console_booked inp _ a t.seat_no hage hopen hnext (by omega)]
      simp only [records]
  · intro d0 i1 i2 i3 i4 a1 a2 a3 a4 hd0 g1 g2 g3 g4 o1 o2 o3 o4 hne
    have n1 : get_next_available_seat d0 = 1 :=
      get_next_available_seat_eq d0 1 (by decide) (by decide)
        (by simp [seat_held, hd0]) (fun k hk1 hk2 => by omega)
    have n2 : get_next_available_seat (some [new_ticket i1 a1 1]) = 2 :=
      get_next_available_seat_eq _ 2 (by decide) (by decide)
        (by simp [seat_held, records, new_ticket])
        (fun k hk1 hk2 => by
          have : k = 1 := by omega
          subst this
          simp [seat_held, records, new_ticket])
    have n3 : get_next_available_seat (some [new_ticket i1 a1 1, new_ticket i2 a2 2]) = 3 :=
      get_next_available_seat_eq _ 3 (by decide) (by decide)
        (by simp [seat_held, records, new_ticket])
        (fun k hk1 hk2 => by
          have : k = 1 ∨ k = 2 := by omega
          rcases this with rfl | rfl <;> simp [seat_held, records, new_ticket])
    have n4 : get_next_available_seat
        (some [new_ticket i1 a1 1, { new_ticket i2 a2 2 with active := 0 },
          new_ticket i3 a3 3]) = 2 :=
      get_next_available_seat_eq _ 2 (by decide) (by decide)
        (by simp [seat_held, records, new_ticket])
        (fun k hk1 hk2 => by
          have : k = 1 := by omega
          subst this
          simp [seat_held, records, new_ticket])
    refine ⟨?_, ?_, ?_, ?_, ?_, rfl, ?_⟩
    · rw [book_ticket_console_booked i1 d0 a1 1 g1 o1 n1 (by decide), hd0]
      rfl
    · rw [book_ticket_console_booked i2 _ a2 2 g2 o2 n2 (by decide)]
      rfl
    · rw [book_ticket_console_booked i3 _ a3 3 g3 o3 n3 (by decide)]
      rfl
    · have hne2 : ¬ (generate_pnr i1.tm i1.rand_value PNR_LEN =
          generate_pnr i2.tm i2.rand_value PNR_LEN) := hne
      simp [cancel_ticket_by_pnr, cancel_scan, new_ticket, hne2]
    · rw [book_ticket_console_booked i4 _ a4 2 g4 o4 n4 (by decide)]
      rfl
    · simp [count_active_bookings, count_scan, new_ticket]

/-- C8, at a concrete run: four bookings with the identifiers ending in 0041, 0042, 0043
and 0044, the second ticket being cancelled before the fourth booking. -/
theorem freed_seat_reallocated_witness :
    book_ticket_console (sample_input_with 44)
        (some [new_ticket (sample_input_with 41) 30 1,
          { new_ticket (sample_input_with 42) 30 2 with active := 0 },
          new_ticket (sample_input_with 43) 30 3]) =
      (some [new_ticket (sample_input_with 41) 30 1,
          { new_ticket (sample_input_with 42) 30 2 with active := 0 },
          new_ticket (sample_input_with 43) 30 3, new_ticket (sample_input_with 44) 30 2],
        BookOutcome.booked (new_ticket (sample_input_with 44) 30 2)) :=
  (freed_seat_reallocated.2 none (sample_input_with 41) (sample_input_with 42)
    (sample_input_with 43) (sample_input_with 44) 30 30 30 30 rfl rfl rfl rfl rfl rfl rfl rfl rfl
    (by decide)).2.2.2.2.1

/-- C11: booking is atomic on failure. A booking attempt does not end in "Booking
successful" exactly when the age does not parse, or `get_next_available_seat` returns
`-1`, or the data file does not open for appending; and every attempt that does not end
in "Booking successful" leaves the data file exactly as it was. -/
theorem booking_atomic_on_failure (inp : BookInput) (d : DataFile) :
    ((inp.age = none ∨ get_next_available_seat d = -1 ∨ inp.append_opens = false) ↔
      ∀ t : Ticket, (book_ticket_console inp d).2 ≠ BookOutcome.booked t) ∧
    ((∀ t : Ticket, (book_ticket_console inp d).2 ≠ BookOutcome.booked t) →
      (book_ticket_console inp d).1 = d) := by
  rcases book_ticket_console_cases inp d with ⟨h1, h⟩ | ⟨a, h1, h2, h⟩ | ⟨a, h1, h2, h3, h⟩ |
    ⟨a, h1, h2, h3, h⟩
  · rw [h]
    exact ⟨⟨fun _ t => by simp, fun _ => Or.inl h1⟩, fun _ => rfl⟩
  · rw [h]
    exact ⟨⟨fun _ t => by simp, fun _ => Or.inr (Or.inl h2)⟩, fun _ => rfl⟩
  · rw [h]
    exact ⟨⟨fun _ t => by simp, fun _ => Or.inr (Or.inr h3)⟩, fun _ => rfl⟩
  · rw [h]
    constructor
    · constructor
      · rintro (h5 | h5 | h5)
        · rw [h1] at h5
          exact absurd h5 (by simp)
        · exact absurd h5 h2
        · rw [h3] at h5
          exact absurd h5 (by simp)
      · intro h5
        exact absurd rfl (h5 _)
    · intro h5
      exact absurd rfl (h5 _)

/-- C11, at a concrete attempt: the age does not parse, the file of one record stays. -/
theorem booking_atomic_on_failure_witness :
    (∀ t : Ticket,
      (book_ticket_console { sample_input with age := none } (book_many 1)).2 ≠
        BookOutcome.booked t) ∧
    (book_ticket_console { sample_input with age := none } (book_many 1)).1 = book_many 1 :=
  have hfail : ∀ t : Ticket,
      (book_ticket_console { sample_input with age := none } (book_many 1)).2 ≠
        BookOutcome.booked t :=
    ((booking_atomic_on_failure { sample_input with age := none } (book_many 1)).1).1
      (Or.inl rfl)
  ⟨hfail, (booking_atomic_on_failure { sample_input with age := none } (book_many 1)).2 hfail⟩

/-- C12: for every data file and every seat number `s`, `seat_is_taken s` returns 1
exactly when some record is active with `seat_no = s`, and 0 otherwise; on an absent
data file it returns 0 for every `s`. -/
theorem seat_is_taken_iff (d : DataFile) (s : Int) :
    (seat_is_taken s d = 1 ↔ ∃ t ∈ records d, t.active ≠ 0 ∧ t.seat_no = s) ∧
    (seat_is_taken s d = 0 ↔ ¬ ∃ t ∈ records d, t.active ≠ 0 ∧ t.seat_no = s) ∧
    seat_is_taken s none = 0 :=
  ⟨seat_is_taken_eq_one_iff s d, seat_is_taken_eq_zero_iff s d, rfl⟩

/-- C12, at a concrete file: after two bookings seat 2 is taken and seat 3 is not. -/
theorem seat_is_taken_iff_witness :
    seat_is_taken 2 (book_many 2) = 1 ∧ seat_is_taken 3 (book_many 2) = 0 ∧
    ∃ t ∈ records (book_many 2), t.active ≠ 0 ∧ t.seat_no = 2 :=
  ⟨by decide, by decide, (seat_is_taken_iff (book_many 2) 2).1.1 (by decide)⟩

/-- C13: the search by identifier gives a negative report exactly when no record has
`pnr = id`: "PNR not found." on a data file that exists, "No bookings found." when the
file is absent (and only then). Otherwise the first record in file order with
`pnr = id` decides, active or not and whatever follows it: its fields are shown when its
`active` field is non-zero, "was cancelled" is reported when it is 0. -/
theorem search_first_match (d : DataFile) (id : CStr) :
    ((search_by_pnr_console id d = SearchResult.not_found ∨
        search_by_pnr_console id d = SearchResult.no_bookings) ↔
      ∀ t ∈ records d, t.pnr ≠ id) ∧
    (search_by_pnr_console id d = SearchResult.no_bookings ↔ d = none) ∧
    (∀ ts : List Ticket, search_by_pnr_console id (some ts) = SearchResult.not_found ↔
      ∀ t ∈ ts, t.pnr ≠ id) ∧
    (∀ (pre post : List Ticket) (t : Ticket), records d = pre ++ t :: post →
      (∀ u ∈ pre, u.pnr ≠ id) → t.pnr = id →
      (t.active ≠ 0 → search_by_pnr_console id d = SearchResult.found_active t) ∧
      (t.active = 0 → search_by_pnr_console id d = SearchResult.was_cancelled)) := by
  have hsome : ∀ ts : List Ticket, search_scan id ts ≠ SearchResult.no_bookings := by
    intro ts
    induction ts with
    | nil => simp [search_scan]
    | cons t rest ih =>
      by_cases hp : t.pnr = id
      · by_cases ha : t.active ≠ 0 <;> simp [search_scan, hp, ha]
      · simpa [search_scan, hp] using ih
  refine ⟨?_, ?_, fun ts => search_scan_not_found_iff id ts, ?_⟩
  · cases d with
    | none => simp [search_by_pnr_console, records]
    | some ts =>
      simp only [search_by_pnr_console, records]
      rw [← search_scan_not_found_iff]
      exact ⟨fun h => h.resolve_right (hsome ts), Or.inl⟩
  · cases d with
    | none => simp [search_by_pnr_console]
    | some ts => simpa [search_by_pnr_console] using hsome ts
  · intro pre post t hd hpre ht
    cases d with
    | none => simp [records] at hd
    | some ts =>
      simp only [records] at hd
      subst hd
      simp only [search_by_pnr_console]
      rw [search_scan_first id pre post t hpre ht]
      exact ⟨fun ha => by simp [ha], fun ha => by simp [ha]⟩

/-- C13, at a concrete file: two records share the identifier, the first is cancelled and
the second active; the search reports "was cancelled". -/
theorem search_first_match_witness :
    records (cancel_ticket_by_pnr sample_pnr true (book_many 2)).2 =
      [] ++ { new_ticket sample_input 30 1 with active := 0 } ::
        [new_ticket sample_input 30 2] ∧
    search_by_pnr_console sample_pnr (cancel_ticket_by_pnr sample_pnr true (book_many 2)).2 =
      SearchResult.was_cancelled :=
  ⟨by decide,
    ((search_first_match (cancel_ticket_by_pnr sample_pnr true (book_many 2)).2 sample_pnr).2.2.2
      [] [new_ticket sample_input 30 2] { new_ticket sample_input 30 1 with active := 0 }
      (by decide) (by simp) (by decide)).2 rfl⟩

/-- C16: the seat range is an invariant. In every data file reachable from an absent or
empty one by bookings and cancellations, every record, active or cancelled, has
`1 ≤ seat_no ≤ MAX_SEATS`. -/
theorem seat_range_invariant (d : DataFile) (h : Reachable d) (t : Ticket)
    (ht : t ∈ records d) : 1 ≤ t.seat_no ∧ t.seat_no ≤ (MAX_SEATS : Int) :=
  (reachable_invariant d h).2 t ht

/-- C16, at a concrete file: the cancelled first record of two bookings is on seat 1. -/
theorem seat_range_invariant_witness :
    { new_ticket sample_input 30 1 with active := 0 } ∈
      records (cancel_ticket_by_pnr sample_pnr true (book_many 2)).2 ∧
    (1 : Int) ≤ ({ new_ticket sample_input 30 1 with active := 0 } : Ticket).seat_no ∧
    ({ new_ticket sample_input 30 1 with active := 0 } : Ticket).seat_no ≤ (MAX_SEATS : Int) :=
  ⟨by decide,
    seat_range_invariant (cancel_ticket_by_pnr sample_pnr true (book_many 2)).2
      (Reachable.step _ (Op.cancel sample_pnr true) (reachable_foldl _ none Reachable.absent))
      { new_ticket sample_input 30 1 with active := 0 } (by decide)⟩

/-- C17: for every data file of `n` records and every cap `max ≥ 0`,
`load_all_tickets(tickets, max)` returns `min(n, max)` and fills the first `min(n, max)`
entries of `tickets` with the first `min(n, max)` records of the file, in file order; when
the data file does not exist it returns 0 and fills nothing. -/
theorem load_all_tickets_spec (ts : List Ticket) (max : Int) (hmax : 0 ≤ max) :
    (load_all_tickets max (some ts)).1 = min (ts.length : Int) max ∧
    (load_all_tickets max (some ts)).2 = ts.take (min (ts.length : Int) max).toNat ∧
    ((load_all_tickets max (some ts)).2.length : Int) = min (ts.length : Int) max ∧
    load_all_tickets max none = (0, []) := by
  have hto : ((max.toNat : Nat) : Int) = max := Int.toNat_of_nonneg hmax
  have htake : ts.take (min (ts.length : Int) max).toNat = ts.take max.toNat := by
    rcases le_total (ts.length : Int) max with h | h
    · rw [min_eq_left h, Int.toNat_ofNat, List.take_length, List.take_of_length_le (by omega)]
    · rw [min_eq_right h]
  simp only [load_all_tickets, load_loop_eq, sub_zero, zero_add, List.nil_append, hto, htake,
    List.length_take, true_and, and_true]
  rcases le_total (ts.length : Int) max with h | h
  · rw [min_eq_left h]
    omega
  · rw [min_eq_right h]
    omega

/-- C17, at a concrete file of two records read with the cap 1. -/
theorem load_all_tickets_spec_witness :
    load_all_tickets 1 (book_many 2) = (1, [new_ticket sample_input 30 1]) ∧
    (load_all_tickets 1 (some [new_ticket sample_input 30 1, new_ticket sample_input 30 2])).1 =
      min ((2 : Nat) : Int) 1 :=
  ⟨by decide,
    (load_all_tickets_spec [new_ticket sample_input 30 1, new_ticket sample_input 30 2] 1
      (by decide)).1⟩

/-- C19: save/load round trip. When the data file opens for writing,
`save_all_tickets(tickets, count)` on a sequence of `count` tickets returns 1, whatever
the file held before, and a following `load_all_tickets(out, max)` returns `count` and
the same records in the same order when `max ≥ count`, and `max` and the first `max` of
them when `0 ≤ max < count`. -/
theorem save_load_round_trip (tickets : List Ticket) (d : DataFile) (max : Int) :
    (save_all_tickets tickets tickets.length true d).1 = 1 ∧
    ((tickets.length : Int) ≤ max →
      load_all_tickets max (save_all_tickets tickets tickets.length true d).2 =
        ((tickets.length : Int), tickets)) ∧
    (0 ≤ max → max < (tickets.length : Int) →
      load_all_tickets max (save_all_tickets tickets tickets.length true d).2 =
        (max, tickets.take max.toNat)) := by
  have hsave : save_all_tickets tickets tickets.length true d = (1, some tickets) := by
    simp [save_all_tickets]
  rw [hsave]
  refine ⟨rfl, fun h => ?_, fun h0 h => ?_⟩
  · simp only [load_all_tickets, load_loop_eq, sub_zero, zero_add, List.nil_append]
    have : tickets.length ≤ max.toNat := by omega
    rw [List.take_of_length_le this, min_eq_left (by omega)]
  · simp only [load_all_tickets, load_loop_eq, sub_zero, zero_add, List.nil_append]
    rw [min_eq_right (by omega), Int.toNat_of_nonneg h0]

/-- C19, at a concrete save over a file of three records, read back with the caps 5
and 1. -/
theorem save_load_round_trip_witness :
    load_all_tickets 5
        (save_all_tickets [new_ticket sample_input 30 1, new_ticket sample_input 30 2]
          2 true (book_many 3)).2 =
      (2, [new_ticket sample_input 30 1, new_ticket sample_input 30 2]) ∧
    load_all_tickets 1
        (save_all_tickets [new_ticket sample_input 30 1, new_ticket sample_input 30 2]
          2 true (book_many 3)).2 =
      (1, [new_ticket sample_input 30 1]) :=
  ⟨(save_load_round_trip [new_ticket sample_input 30 1, new_ticket sample_input 30 2]
      (book_many 3) 5).2.1 (by decide),
    (save_load_round_trip [new_ticket sample_input 30 1, new_ticket sample_input 30 2]
      (book_many 3) 1).2.2 (by decide) (by decide)⟩

/-- C20: seat map consistency. In every data file reachable from an absent or empty one
by bookings and cancellations, the number of seat numbers `s` of `1..MAX_SEATS` with
`seat_is_taken s = 1`, which is the number of seats drawn as `X`, equals
`count_active_bookings` (the "Booked" total); so that count is at most `MAX_SEATS`, and
the printed "Available" value `MAX_SEATS - count_active_bookings` is not negative and
equals the number of seats drawn as `O`. -/
theorem seat_map_consistent (d : DataFile) (h : Reachable d) :
    (((Finset.Icc (1 : Int) (MAX_SEATS : Int)).filter
        (fun s => seat_is_taken s d = 1)).card : Int) = count_active_bookings d ∧
    (((show_available_seats_console d).marks.count 'X' : Nat) : Int) =
      (show_available_seats_console d).booked ∧
    (show_available_seats_console d).booked = count_active_bookings d ∧
    count_active_bookings d ≤ (MAX_SEATS : Int) ∧
    0 ≤ (show_available_seats_console d).available ∧
    (show_available_seats_console d).available =
      (((show_available_seats_console d).marks.count 'O' : Nat) : Int) ∧
    (show_available_seats_console d).marks.length = MAX_SEATS := by
  obtain ⟨h1, h2⟩ := reachable_invariant d h
  have hcard := taken_seats_card d h1 h2
  have hcount := count_active_bookings_eq d
  have hX := seat_map_loop_count_taken d MAX_SEATS 1
  have hXO := seat_map_loop_count_add d MAX_SEATS 1
  have hIcc : Finset.Ico (1 : Int) (1 + (MAX_SEATS : Int)) =
      Finset.Icc (1 : Int) (MAX_SEATS : Int) := by
    ext x
    simp only [Finset.mem_Ico, Finset.mem_Icc]
    omega
  rw [hIcc, hcard] at hX
  have hmarks : (show_available_seats_console d).marks = seat_map_loop d MAX_SEATS 1 := rfl
  have hbooked : (show_available_seats_console d).booked = count_active_bookings d := rfl
  have havail : (show_available_seats_console d).available =
      (MAX_SEATS : Int) - count_active_bookings d := rfl
  rw [hmarks, hbooked, havail]
  refine ⟨by rw [hcard, hcount], by rw [hX, hcount], rfl, by omega, by omega, by omega,
    seat_map_loop_length d MAX_SEATS 1⟩

/-- C20, at a concrete file: two bookings of which the first is cancelled; one seat is
drawn as `X`, 99 as `O`, and the last line reads booked 1, available 99. -/
theorem seat_map_consistent_witness :
    (show_available_seats_console (cancel_ticket_by_pnr sample_pnr true (book_many 2)).2).booked
      = 1 ∧
    (show_available_seats_console (cancel_ticket_by_pnr sample_pnr true (book_many 2)).2).available
      = 99 ∧
    ((((show_available_seats_console
        (cancel_ticket_by_pnr sample_pnr true (book_many 2)).2).marks.count 'X' : Nat) : Int) =
      (show_available_seats_console
        (cancel_ticket_by_pnr sample_pnr true (book_many 2)).2).booked) :=
  ⟨by decide, by decide,
    (seat_map_consistent (cancel_ticket_by_pnr sample_pnr true (book_many 2)).2
      (Reachable.step _ (Op.cancel sample_pnr true)
        (reachable_foldl _ none Reachable.absent))).2.1⟩

/-- C14, as stated, fails: two bookings made in the same minute for which `rand()` gives
the same value are both active and carry the same identifier. -/
theorem pnr_uniqueness_counterexample :
    Reachable (book_many 2) ∧
    (records (book_many 2))[0]? = some (new_ticket sample_input 30 1) ∧
    (records (book_many 2))[1]? = some (new_ticket sample_input 30 2) ∧
    (new_ticket sample_input 30 1).active ≠ 0 ∧ (new_ticket sample_input 30 2).active ≠ 0 ∧
    (new_ticket sample_input 30 1).pnr = (new_ticket sample_input 30 2).pnr :=
  ⟨reachable_foldl _ none Reachable.absent, by decide, by decide, by decide, by decide,
    by decide⟩

/-- C14, amended: identifier uniqueness holds when the generated identifiers do not
collide. After any run of bookings and cancellations from a data file without records,
in which `generate_pnr` gives pairwise different identifiers for the bookings, no two
records at different positions that are both active carry the same `pnr`. -/
theorem pnr_unique_without_collision (ops : List Op) (start : DataFile)
    (hstart : records start = []) (hnodup : (booking_pnrs ops).Nodup) (i j : Nat)
    (ti tj : Ticket) (hij : i ≠ j)
    (hi : (records (ops.foldl apply_op start))[i]? = some ti)
    (hj : (records (ops.foldl apply_op start))[j]? = some tj)
    (_hai : ti.active ≠ 0) (_haj : tj.active ≠ 0) : ti.pnr ≠ tj.pnr := by
  have hsub := foldl_apply_op_pnrs ops start
  rw [hstart, List.map_nil, List.nil_append] at hsub
  have hp : ((records (ops.foldl apply_op start)).map Ticket.pnr).Nodup := hnodup.sublist hsub
  unfold List.Nodup at hp
  rw [List.pairwise_map, List.pairwise_iff_getElem] at hp
  obtain ⟨hi1, hi2⟩ := List.getElem?_eq_some.1 hi
  obtain ⟨hj1, hj2⟩ := List.getElem?_eq_some.1 hj
  rcases Nat.lt_or_gt_of_ne hij with hlt | hgt
  · have := hp i j hi1 hj1 hlt
    rw [hi2, hj2] at this
    exact this
  · have := hp j i hj1 hi1 hgt
    rw [hi2, hj2] at this
    exact fun e => this e.symm

/-- C14 amended, at a concrete run: two bookings whose identifiers end in 0041 and 0042. -/
theorem pnr_unique_without_collision_witness :
    (booking_pnrs [Op.book (sample_input_with 41), Op.book (sample_input_with 42)]).Nodup ∧
    (new_ticket (sample_input_with 41) 30 1).pnr ≠ (new_ticket (sample_input_with 42) 30 2).pnr :=
  ⟨by decide,
    pnr_unique_without_collision
      [Op.book (sample_input_with 41), Op.book (sample_input_with 42)] none rfl (by decide)
      0 1 (new_ticket (sample_input_with 41) 30 1) (new_ticket (sample_input_with 42) 30 2)
      (by decide) (by decide) (by decide) (by decide) (by decide)⟩

/-- C15: identifier format. For a month `tm_mon + 1` in 1..12, a day in 1..31, an hour in
0..23, a minute in 0..59 and any `rand()` value, `generate_pnr` with the buffer of
`PNR_LEN = 32` bytes writes exactly `PNR`, then month, day, hour and minute as two
zero-padded digits each, then `rand() % 10000` as four zero-padded digits: 15
characters, none cut off. The result depends on these five values only, and two in-range
calls give the same identifier only if the five values agree. -/
theorem generate_pnr_format (tm tm2 : Tm) (rand_value rand_value2 : Nat)
    (hmon : 1 ≤ tm.tm_mon + 1 ∧ tm.tm_mon + 1 ≤ 12) (hday : 1 ≤ tm.tm_mday ∧ tm.tm_mday ≤ 31)
    (hhour : 0 ≤ tm.tm_hour ∧ tm.tm_hour ≤ 23) (hmin : 0 ≤ tm.tm_min ∧ tm.tm_min ≤ 59)
    (hmon2 : 1 ≤ tm2.tm_mon + 1 ∧ tm2.tm_mon + 1 ≤ 12)
    (hday2 : 1 ≤ tm2.tm_mday ∧ tm2.tm_mday ≤ 31)
    (hhour2 : 0 ≤ tm2.tm_hour ∧ tm2.tm_hour ≤ 23)
    (hmin2 : 0 ≤ tm2.tm_min ∧ tm2.tm_min ≤ 59) :
    generate_pnr tm rand_value PNR_LEN =
      ['P', 'N', 'R'] ++ two_digit_field (tm.tm_mon + 1).toNat ++
        two_digit_field tm.tm_mday.toNat ++ two_digit_field tm.tm_hour.toNat ++
        two_digit_field tm.tm_min.toNat ++ four_digit_field (rand_value % 10000) ∧
    (generate_pnr tm rand_value PNR_LEN).length = 15 ∧
    (generate_pnr tm rand_value PNR_LEN = generate_pnr tm2 rand_value2 PNR_LEN ↔
      tm.tm_mon + 1 = tm2.tm_mon + 1 ∧ tm.tm_mday = tm2.tm_mday ∧ tm.tm_hour = tm2.tm_hour ∧
        tm.tm_min = tm2.tm_min ∧ rand_value % 10000 = rand_value2 % 10000) := by
  have e1 := generate_pnr_eq_format tm rand_value ⟨by omega, by omega⟩ ⟨by omega, by omega⟩
    ⟨by omega, by omega⟩ ⟨by omega, by omega⟩
  have e2 := generate_pnr_eq_format tm2 rand_value2 ⟨by omega, by omega⟩ ⟨by omega, by omega⟩
    ⟨by omega, by omega⟩ ⟨by omega, by omega⟩
  refine ⟨e1, by rw [e1]; rfl, ?_, ?_⟩
  · intro h
    rw [e1, e2] at h
    have := pnr_format_inj _ _ _ _ _ _ _ _ _ _ (by omega) (by omega) (by omega) (by omega)
      (Nat.mod_lt _ (by decide)) (by omega) (by omega) (by omega) (by omega)
      (Nat.mod_lt _ (by decide)) h
    omega
  · rintro ⟨h1, h2, h3, h4, h5⟩
    rw [e1, e2, h1, h2, h3, h4, h5]

/-- C15, at concrete values: 30 October, 13:05, `rand()` giving 12345 and 2345. -/
theorem generate_pnr_format_witness :
    generate_pnr ⟨9, 30, 13, 5⟩ 12345 PNR_LEN =
      ['P', 'N', 'R', '1', '0', '3', '0', '1', '3', '0', '5', '2', '3', '4', '5'] ∧
    (generate_pnr ⟨9, 30, 13, 5⟩ 12345 PNR_LEN).length = 15 ∧
    generate_pnr ⟨9, 30, 13, 5⟩ 12345 PNR_LEN = generate_pnr ⟨9, 30, 13, 5⟩ 2345 PNR_LEN :=
  ⟨by decide,
    (generate_pnr_format ⟨9, 30, 13, 5⟩ ⟨9, 30, 13, 5⟩ 12345 2345 (by decide) (by decide)
      (by decide) (by decide) (by decide) (by decide) (by decide) (by decide)).2.1,
    (generate_pnr_format ⟨9, 30, 13, 5⟩ ⟨9, 30, 13, 5⟩ 12345 2345 (by decide) (by decide)
      (by decide) (by decide) (by decide) (by decide) (by decide) (by decide)).2.2.2
      ⟨rfl, rfl, rfl, rfl, by decide⟩⟩

end Railway
